import Mathlib

/-! # Object identifiers of libbson (`bson-oid.c`)

A shallow embedding of `src/bson/bson-oid.c`: the generator context, the
construction of 12-byte object identifiers, the hex codec, and comparison.

Conventions of the embedding.

* A byte (`bson_uint8_t`, and a C `char` seen as its code) is a `Fin 256`.
* Wider machine integers are `Nat` with an explicit `% 2 ^ w` wherever the C
  code truncates or wraps; `time_t` is an `Int`.
* A pointer argument that the code tests against `NULL` is an `Option`; an
  operation that writes through a pointer returns the memory it points to after
  the call.
* A `char *` is the memory it points to, offset by offset (`Nat → bson_uint8_t`).
* The services of the operating system (`time`, `getpid`, `gethostname`, `rand`,
  the thread id) and the digest are fields of `Env`.
-/

namespace BsonOid

/-! ## Machine types -/

/-- One byte. -/
abbrev bson_uint8_t := Fin 256

/-- The byte holding the low eight bits of `n` (conversion to `bson_uint8_t`). -/
def to_uint8 (n : Nat) : bson_uint8_t := ⟨n % 256, Nat.mod_lt n (by decide)⟩

/-- The memory behind a `char *`: the character code found at each offset. -/
abbrev c_string := Nat → bson_uint8_t

/-- The 12-byte identifier `bson_oid_t` (`sizeof (bson_oid_t) == 12`). -/
structure bson_oid_t where
  bytes : Fin 12 → bson_uint8_t

/-- The twelve bytes of an identifier in memory order. -/
def bson_oid_t.toList (oid : bson_oid_t) : List bson_uint8_t :=
  [oid.bytes 0, oid.bytes 1, oid.bytes 2, oid.bytes 3, oid.bytes 4, oid.bytes 5,
   oid.bytes 6, oid.bytes 7, oid.bytes 8, oid.bytes 9, oid.bytes 10, oid.bytes 11]

/-- Host byte order, the value of `BSON_BYTE_ORDER`. -/
inductive byte_order where
  | BSON_BIG_ENDIAN
  | BSON_LITTLE_ENDIAN
  deriving DecidableEq, Repr

/-- The `memcpy (&oid->bytes[off], src, n)` of the source: `n` bytes of `src`
land at offsets `off .. off + n - 1` of the identifier. -/
def memcpy_to_oid (oid : bson_oid_t) (off : Nat) (src : List bson_uint8_t) (n : Nat) :
    bson_oid_t :=
  ⟨fun i => if off ≤ i.val ∧ i.val < off + n then src.getD (i.val - off) 0 else oid.bytes i⟩

/-- The assignment `oid->bytes[k] = v`. -/
def store_byte (oid : bson_oid_t) (k : Fin 12) (v : bson_uint8_t) : bson_oid_t :=
  ⟨fun i => if i = k then v else oid.bytes i⟩

/-- Modelled from the spec: the macro `BSON_UINT16_TO_BE` of the absent
`bson-endian.h`, seen through the memory of its 16-bit result. The spec fixes
the byte order of every multi-byte field as big-endian regardless of the host,
so the two bytes are the high and the low byte of the value truncated to 16
bits. -/
def BSON_UINT16_TO_BE (v : Nat) : List bson_uint8_t :=
  [to_uint8 (v % 2 ^ 16 / 2 ^ 8), to_uint8 (v % 2 ^ 16)]

/-- Modelled from the spec: the macro `BSON_UINT32_TO_BE` of the absent
`bson-endian.h`, seen through the memory of its 32-bit result: the four bytes of
the value truncated to 32 bits, most significant first. -/
def BSON_UINT32_TO_BE (v : Nat) : List bson_uint8_t :=
  [to_uint8 (v % 2 ^ 32 / 2 ^ 24), to_uint8 (v % 2 ^ 32 / 2 ^ 16),
   to_uint8 (v % 2 ^ 32 / 2 ^ 8), to_uint8 (v % 2 ^ 32)]

/-- Modelled from the spec: the macro `BSON_UINT64_TO_BE` of the absent
`bson-endian.h`, seen through the memory of its 64-bit result: the eight bytes
of the value truncated to 64 bits, most significant first. -/
def BSON_UINT64_TO_BE (v : Nat) : List bson_uint8_t :=
  [to_uint8 (v % 2 ^ 64 / 2 ^ 56), to_uint8 (v % 2 ^ 64 / 2 ^ 48),
   to_uint8 (v % 2 ^ 64 / 2 ^ 40), to_uint8 (v % 2 ^ 64 / 2 ^ 32),
   to_uint8 (v % 2 ^ 64 / 2 ^ 24), to_uint8 (v % 2 ^ 64 / 2 ^ 16),
   to_uint8 (v % 2 ^ 64 / 2 ^ 8), to_uint8 (v % 2 ^ 64)]

/-! ## Argument checks -/

/-- Modelled from the spec: the macro `bson_return_if_fail (test)` of an absent
header, used by the operations that return nothing. The spec gives a null
argument to a public operation a defined no-op behaviour: the operation returns
at once and the memory it could write, `state`, stays as it is; otherwise the
function goes on with the pointer's target. -/
def bson_return_if_fail {α σ : Type} (test : Option α) (state : σ) (rest : α → σ) : σ :=
  match test with
  | none => state
  | some a => rest a

/-- Modelled from the spec: the macro `bson_return_val_if_fail (test, val)` of
an absent header: on a null argument the operation returns the safe default
`val` at once; otherwise the function goes on with the pointer's target. -/
def bson_return_val_if_fail {α β : Type} (test : Option α) (val : β) (rest : α → β) : β :=
  match test with
  | none => val
  | some a => rest a

/-! ## The generator context -/

/-- Modelled from the spec: the flag set `bson_context_flags_t`, whose bit
values are in an absent header. The spec names four options; each is one bit of
the set, here one boolean. -/
structure bson_context_flags_t where
  BSON_CONTEXT_THREAD_SAFE : Bool
  BSON_CONTEXT_DISABLE_HOST_CACHE : Bool
  BSON_CONTEXT_DISABLE_PID_CACHE : Bool
  BSON_CONTEXT_USE_TASK_ID : Bool
  deriving DecidableEq, Repr

/-- The empty flag set (default flags). -/
def BSON_CONTEXT_NONE : bson_context_flags_t := ⟨false, false, false, false⟩

/-- The functions the pointer `oid_get_host` can hold. -/
inductive oid_get_host_fn where
  | bson_oid_get_host
  | bson_oid_get_host_cached
  deriving DecidableEq, Repr

/-- The functions the pointer `oid_get_pid` can hold. -/
inductive oid_get_pid_fn where
  | bson_oid_get_pid
  | bson_oid_get_pid_cached
  deriving DecidableEq, Repr

/-- The functions the pointer `oid_get_seq32` can hold. -/
inductive oid_get_seq32_fn where
  | bson_oid_get_seq32
  | bson_oid_get_seq32_threadsafe
  deriving DecidableEq, Repr

/-- The functions the pointer `oid_get_seq64` can hold. -/
inductive oid_get_seq64_fn where
  | bson_oid_get_seq64
  | bson_oid_get_seq64_threadsafe
  deriving DecidableEq, Repr

/-- The context `bson_context_real_t`. -/
structure bson_context_real_t where
  flags : bson_context_flags_t
  pidbe_once : Bool
  pidbe : Fin 2 → bson_uint8_t
  md5 : Fin 3 → bson_uint8_t
  seq32 : Nat
  seq64 : Nat
  oid_get_host : oid_get_host_fn
  oid_get_pid : oid_get_pid_fn
  oid_get_seq32 : oid_get_seq32_fn
  oid_get_seq64 : oid_get_seq64_fn

/-- What the code asks of its environment at one call: the clock, the process
id, the thread id the system call returns, the host name buffer as
`gethostname` leaves it (NUL past the end of the list), the next value of
`rand`, the digest primitive (bytes in, 16-byte digest out), the constant
`HOST_NAME_MAX` of the platform (256 when `limits.h` has none), and whether the
platform is Linux (the only one where the source compiles `gettid`). -/
structure Env where
  time : Int
  getpid : Nat
  SYS_gettid : Nat
  gethostname : List bson_uint8_t
  rand : Nat
  bson_md5 : List bson_uint8_t → Fin 16 → bson_uint8_t
  HOST_NAME_MAX : Nat
  linux : Bool

/-- The live fingerprint `bson_oid_get_host`: the host name, cut at
`HOST_NAME_MAX - 1` characters and at its first NUL (`strlen`), is digested and
the first three digest bytes go to offsets 4, 5 and 6. -/
def bson_oid_get_host (env : Env) (oid : bson_oid_t) (context : bson_context_real_t) :
    bson_oid_t × bson_context_real_t :=
  let hostname := (env.gethostname.take (env.HOST_NAME_MAX - 1)).takeWhile (fun c => c ≠ 0)
  let digest := env.bson_md5 hostname
  let oid := store_byte oid 4 (digest 0)
  let oid := store_byte oid 5 (digest 1)
  let oid := store_byte oid 6 (digest 2)
  (oid, context)

/-- The cached fingerprint `bson_oid_get_host_cached`. -/
def bson_oid_get_host_cached (oid : bson_oid_t) (context : bson_context_real_t) :
    bson_oid_t × bson_context_real_t :=
  let real := context
  let oid := store_byte oid 4 (real.md5 0)
  let oid := store_byte oid 5 (real.md5 1)
  let oid := store_byte oid 6 (real.md5 2)
  (oid, context)

/-- The live process id `bson_oid_get_pid`: the two bytes of
`BSON_UINT16_TO_BE (getpid ())` go to offsets 7 and 8. -/
def bson_oid_get_pid (env : Env) (oid : bson_oid_t) (context : bson_context_real_t) :
    bson_oid_t × bson_context_real_t :=
  let pid := BSON_UINT16_TO_BE env.getpid
  let oid := store_byte oid 7 (pid.getD 0 0)
  let oid := store_byte oid 8 (pid.getD 1 0)
  (oid, context)

/-- The cached process id `bson_oid_get_pid_cached`. -/
def bson_oid_get_pid_cached (oid : bson_oid_t) (context : bson_context_real_t) :
    bson_oid_t × bson_context_real_t :=
  let real := context
  let oid := store_byte oid 7 (real.pidbe 0)
  let oid := store_byte oid 8 (real.pidbe 1)
  (oid, context)

/-- The plain 32-bit counter `bson_oid_get_seq32`: `real->seq32++` yields the
value before the increment and leaves the counter one higher, wrapping at
`2 ^ 32`; bytes 1, 2 and 3 of the big-endian value go to offsets 9 to 11. The
argument of the macro is evaluated once, the read-then-increment the spec
describes. -/
def bson_oid_get_seq32 (oid : bson_oid_t) (context : bson_context_real_t) :
    bson_oid_t × bson_context_real_t :=
  let real := context
  let seq := BSON_UINT32_TO_BE real.seq32
  let real := { real with seq32 := (real.seq32 + 1) % 2 ^ 32 }
  (memcpy_to_oid oid 9 (seq.drop 1) 3, real)

/-- The atomic 32-bit counter `bson_oid_get_seq32_threadsafe`, run by one
caller at a time: `__sync_fetch_and_add` yields the value before the addition. -/
def bson_oid_get_seq32_threadsafe (oid : bson_oid_t) (context : bson_context_real_t) :
    bson_oid_t × bson_context_real_t :=
  let real := context
  let fetched := real.seq32
  let real := { real with seq32 := (real.seq32 + 1) % 2 ^ 32 }
  let seq := BSON_UINT32_TO_BE fetched
  (memcpy_to_oid oid 9 (seq.drop 1) 3, real)

/-- The plain 64-bit counter `bson_oid_get_seq64`. -/
def bson_oid_get_seq64 (oid : bson_oid_t) (context : bson_context_real_t) :
    bson_oid_t × bson_context_real_t :=
  let real := context
  let seq := BSON_UINT64_TO_BE real.seq64
  let real := { real with seq64 := (real.seq64 + 1) % 2 ^ 64 }
  (memcpy_to_oid oid 4 seq 8, real)

/-- The atomic 64-bit counter `bson_oid_get_seq64_threadsafe`, run by one
caller at a time. -/
def bson_oid_get_seq64_threadsafe (oid : bson_oid_t) (context : bson_context_real_t) :
    bson_oid_t × bson_context_real_t :=
  let real := context
  let fetched := real.seq64
  let real := { real with seq64 := (real.seq64 + 1) % 2 ^ 64 }
  let seq := BSON_UINT64_TO_BE fetched
  (memcpy_to_oid oid 4 seq 8, real)

/-- The function `gettid` of the source, compiled on Linux only; its return
type is `bson_uint16_t`, so the thread id is truncated to 16 bits. -/
def gettid (env : Env) : Nat := env.SYS_gettid % 2 ^ 16

/-- A call through the pointer `real->oid_get_host`. -/
def call_oid_get_host (f : oid_get_host_fn) (env : Env) (oid : bson_oid_t)
    (context : bson_context_real_t) : bson_oid_t × bson_context_real_t :=
  match f with
  | .bson_oid_get_host => bson_oid_get_host env oid context
  | .bson_oid_get_host_cached => bson_oid_get_host_cached oid context

/-- A call through the pointer `real->oid_get_pid`. -/
def call_oid_get_pid (f : oid_get_pid_fn) (env : Env) (oid : bson_oid_t)
    (context : bson_context_real_t) : bson_oid_t × bson_context_real_t :=
  match f with
  | .bson_oid_get_pid => bson_oid_get_pid env oid context
  | .bson_oid_get_pid_cached => bson_oid_get_pid_cached oid context

/-- A call through the pointer `real->oid_get_seq32`. -/
def call_oid_get_seq32 (f : oid_get_seq32_fn) (oid : bson_oid_t)
    (context : bson_context_real_t) : bson_oid_t × bson_context_real_t :=
  match f with
  | .bson_oid_get_seq32 => bson_oid_get_seq32 oid context
  | .bson_oid_get_seq32_threadsafe => bson_oid_get_seq32_threadsafe oid context

/-- A call through the pointer `real->oid_get_seq64`. -/
def call_oid_get_seq64 (f : oid_get_seq64_fn) (oid : bson_oid_t)
    (context : bson_context_real_t) : bson_oid_t × bson_context_real_t :=
  match f with
  | .bson_oid_get_seq64 => bson_oid_get_seq64 oid context
  | .bson_oid_get_seq64_threadsafe => bson_oid_get_seq64_threadsafe oid context

/-- The context after `memset (real, 0, sizeof *real)`. The function pointers
are overwritten before any use; they are shown with the values the next four
assignments of `bson_context_init` give them. -/
def zeroed_context : bson_context_real_t :=
  { flags := BSON_CONTEXT_NONE
    pidbe_once := false
    pidbe := fun _ => 0
    md5 := fun _ => 0
    seq32 := 0
    seq64 := 0
    oid_get_host := .bson_oid_get_host_cached
    oid_get_pid := .bson_oid_get_pid_cached
    oid_get_seq32 := .bson_oid_get_seq32
    oid_get_seq64 := .bson_oid_get_seq64 }

/-- The call `memset (real, 0, sizeof *real)`: whatever the context held, it
is the zeroed context afterwards. -/
def memset_zero (_real : bson_context_real_t) : bson_context_real_t := zeroed_context

/-- The initialisation `bson_context_init (context, flags)`. The first argument
is the memory of the context before the call, which `memset` erases. The local
`bson_oid_t oid` is uninitialised in the source; only the three bytes that
`bson_oid_get_host` has just written are read from it. -/
def bson_context_init (env : Env) (context : bson_context_real_t)
    (flags : bson_context_flags_t) : bson_context_real_t :=
  let oid : bson_oid_t := ⟨fun _ => 0⟩
  let real := memset_zero context
  let real := { real with flags := flags }
  let real := { real with oid_get_host := .bson_oid_get_host_cached }
  let real := { real with oid_get_pid := .bson_oid_get_pid_cached }
  let real := { real with oid_get_seq32 := .bson_oid_get_seq32 }
  let real := { real with oid_get_seq64 := .bson_oid_get_seq64 }
  let real := { real with seq32 := (env.rand % 0xFFFF) % 2 ^ 32 }
  let real :=
    if flags.BSON_CONTEXT_DISABLE_HOST_CACHE then
      { real with oid_get_host := .bson_oid_get_host }
    else
      let oid := (bson_oid_get_host env oid real).1
      { real with md5 := ![oid.bytes 4, oid.bytes 5, oid.bytes 6] }
  let real :=
    if flags.BSON_CONTEXT_THREAD_SAFE then
      { real with oid_get_seq32 := .bson_oid_get_seq32_threadsafe
                  oid_get_seq64 := .bson_oid_get_seq64_threadsafe }
    else real
  let real :=
    if flags.BSON_CONTEXT_DISABLE_PID_CACHE then
      { real with oid_get_pid := .bson_oid_get_pid }
    else
      let pid := BSON_UINT16_TO_BE env.getpid
      let pid :=
        if env.linux && flags.BSON_CONTEXT_USE_TASK_ID then
          let tid := gettid env
          if tid ≠ 0 then BSON_UINT16_TO_BE tid else pid
        else pid
      { real with pidbe := fun i => pid.getD i.val 0 }
  real

/-- The sequence construction `bson_oid_init_sequence`; the source checks
neither pointer, so both are taken as valid. -/
def bson_oid_init_sequence (env : Env) (oid : bson_oid_t) (context : bson_context_real_t) :
    bson_oid_t × bson_context_real_t :=
  let real := context
  let now := BSON_UINT32_TO_BE (env.time % 2 ^ 32).toNat
  let oid := memcpy_to_oid oid 0 now 4
  call_oid_get_seq64 real.oid_get_seq64 oid context

/-- The time-based construction `bson_oid_init`. The result is the memory
behind `oid` and behind `context` after the call. -/
def bson_oid_init (env : Env) (oid : Option bson_oid_t) (context : Option bson_context_real_t) :
    Option bson_oid_t × Option bson_context_real_t :=
  let now := (env.time % 2 ^ 32).toNat
  bson_return_if_fail oid (oid, context) fun o =>
  bson_return_if_fail context (oid, context) fun real =>
    let now := BSON_UINT32_TO_BE now
    let o := memcpy_to_oid o 0 now 4
    let (o, real) := call_oid_get_host real.oid_get_host env o real
    let (o, real) := call_oid_get_pid real.oid_get_pid env o real
    let (o, real) := call_oid_get_seq32 real.oid_get_seq32 o real
    (some o, some real)

/-! ## The hex codec -/

/-- The table `gHexCharPairs`, in the variant the source compiles for the given
host byte order. -/
def gHexCharPairs (order : byte_order) : List Nat :=
  match order with
  | .BSON_BIG_ENDIAN => [
   12336, 12337, 12338, 12339, 12340, 12341, 12342, 12343, 12344, 12345,
   12385, 12386, 12387, 12388, 12389, 12390, 12592, 12593, 12594, 12595,
   12596, 12597, 12598, 12599, 12600, 12601, 12641, 12642, 12643, 12644,
   12645, 12646, 12848, 12849, 12850, 12851, 12852, 12853, 12854, 12855,
   12856, 12857, 12897, 12898, 12899, 12900, 12901, 12902, 13104, 13105,
   13106, 13107, 13108, 13109, 13110, 13111, 13112, 13113, 13153, 13154,
   13155, 13156, 13157, 13158, 13360, 13361, 13362, 13363, 13364, 13365,
   13366, 13367, 13368, 13369, 13409, 13410, 13411, 13412, 13413, 13414,
   13616, 13617, 13618, 13619, 13620, 13621, 13622, 13623, 13624, 13625,
   13665, 13666, 13667, 13668, 13669, 13670, 13872, 13873, 13874, 13875,
   13876, 13877, 13878, 13879, 13880, 13881, 13921, 13922, 13923, 13924,
   13925, 13926, 14128, 14129, 14130, 14131, 14132, 14133, 14134, 14135,
   14136, 14137, 14177, 14178, 14179, 14180, 14181, 14182, 14384, 14385,
   14386, 14387, 14388, 14389, 14390, 14391, 14392, 14393, 14433, 14434,
   14435, 14436, 14437, 14438, 14640, 14641, 14642, 14643, 14644, 14645,
   14646, 14647, 14648, 14649, 14689, 14690, 14691, 14692, 14693, 14694,
   24880, 24881, 24882, 24883, 24884, 24885, 24886, 24887, 24888, 24889,
   24929, 24930, 24931, 24932, 24933, 24934, 25136, 25137, 25138, 25139,
   25140, 25141, 25142, 25143, 25144, 25145, 25185, 25186, 25187, 25188,
   25189, 25190, 25392, 25393, 25394, 25395, 25396, 25397, 25398, 25399,
   25400, 25401, 25441, 25442, 25443, 25444, 25445, 25446, 25648, 25649,
   25650, 25651, 25652, 25653, 25654, 25655, 25656, 25657, 25697, 25698,
   25699, 25700, 25701, 25702, 25904, 25905, 25906, 25907, 25908, 25909,
   25910, 25911, 25912, 25913, 25953, 25954, 25955, 25956, 25957, 25958,
   26160, 26161, 26162, 26163, 26164, 26165, 26166, 26167, 26168, 26169,
   26209, 26210, 26211, 26212, 26213, 26214]
  | .BSON_LITTLE_ENDIAN => [
   12336, 12592, 12848, 13104, 13360, 13616, 13872, 14128, 14384, 14640,
   24880, 25136, 25392, 25648, 25904, 26160, 12337, 12593, 12849, 13105,
   13361, 13617, 13873, 14129, 14385, 14641, 24881, 25137, 25393, 25649,
   25905, 26161, 12338, 12594, 12850, 13106, 13362, 13618, 13874, 14130,
   14386, 14642, 24882, 25138, 25394, 25650, 25906, 26162, 12339, 12595,
   12851, 13107, 13363, 13619, 13875, 14131, 14387, 14643, 24883, 25139,
   25395, 25651, 25907, 26163, 12340, 12596, 12852, 13108, 13364, 13620,
   13876, 14132, 14388, 14644, 24884, 25140, 25396, 25652, 25908, 26164,
   12341, 12597, 12853, 13109, 13365, 13621, 13877, 14133, 14389, 14645,
   24885, 25141, 25397, 25653, 25909, 26165, 12342, 12598, 12854, 13110,
   13366, 13622, 13878, 14134, 14390, 14646, 24886, 25142, 25398, 25654,
   25910, 26166, 12343, 12599, 12855, 13111, 13367, 13623, 13879, 14135,
   14391, 14647, 24887, 25143, 25399, 25655, 25911, 26167, 12344, 12600,
   12856, 13112, 13368, 13624, 13880, 14136, 14392, 14648, 24888, 25144,
   25400, 25656, 25912, 26168, 12345, 12601, 12857, 13113, 13369, 13625,
   13881, 14137, 14393, 14649, 24889, 25145, 25401, 25657, 25913, 26169,
   12385, 12641, 12897, 13153, 13409, 13665, 13921, 14177, 14433, 14689,
   24929, 25185, 25441, 25697, 25953, 26209, 12386, 12642, 12898, 13154,
   13410, 13666, 13922, 14178, 14434, 14690, 24930, 25186, 25442, 25698,
   25954, 26210, 12387, 12643, 12899, 13155, 13411, 13667, 13923, 14179,
   14435, 14691, 24931, 25187, 25443, 25699, 25955, 26211, 12388, 12644,
   12900, 13156, 13412, 13668, 13924, 14180, 14436, 14692, 24932, 25188,
   25444, 25700, 25956, 26212, 12389, 12645, 12901, 13157, 13413, 13669,
   13925, 14181, 14437, 14693, 24933, 25189, 25445, 25701, 25957, 26213,
   12390, 12646, 12902, 13158, 13414, 13670, 13926, 14182, 14438, 14694,
   24934, 25190, 25446, 25702, 25958, 26214]

/-- The assignment `dst[k] = v` through the `bson_uint16_t *dst` that aliases
the string: the two bytes of `v` land at offsets `2 * k` and `2 * k + 1` in
host byte order. -/
def store_uint16 (order : byte_order) (str : c_string) (k : Nat) (v : Nat) : c_string :=
  fun j =>
    if j = 2 * k then
      match order with
      | .BSON_BIG_ENDIAN => to_uint8 (v % 2 ^ 16 / 2 ^ 8)
      | .BSON_LITTLE_ENDIAN => to_uint8 (v % 2 ^ 16)
    else if j = 2 * k + 1 then
      match order with
      | .BSON_BIG_ENDIAN => to_uint8 (v % 2 ^ 16)
      | .BSON_LITTLE_ENDIAN => to_uint8 (v % 2 ^ 16 / 2 ^ 8)
    else str j

/-- The assignment `str[k] = c`. -/
def store_char (str : c_string) (k : Nat) (c : bson_uint8_t) : c_string :=
  fun j => if j = k then c else str j

/-- The encoder `bson_oid_to_string (oid, str)`; the result is the memory behind
`str` after the call. -/
def bson_oid_to_string (order : byte_order) (oid : Option bson_oid_t) (str : Option c_string) :
    Option c_string :=
  bson_return_if_fail oid str fun id =>
  bson_return_if_fail str str fun str =>
    let dst := str
    let dst := store_uint16 order dst 0 ((gHexCharPairs order).getD (id.bytes 0).val 0)
    let dst := store_uint16 order dst 1 ((gHexCharPairs order).getD (id.bytes 1).val 0)
    let dst := store_uint16 order dst 2 ((gHexCharPairs order).getD (id.bytes 2).val 0)
    let dst := store_uint16 order dst 3 ((gHexCharPairs order).getD (id.bytes 3).val 0)
    let dst := store_uint16 order dst 4 ((gHexCharPairs order).getD (id.bytes 4).val 0)
    let dst := store_uint16 order dst 5 ((gHexCharPairs order).getD (id.bytes 5).val 0)
    let dst := store_uint16 order dst 6 ((gHexCharPairs order).getD (id.bytes 6).val 0)
    let dst := store_uint16 order dst 7 ((gHexCharPairs order).getD (id.bytes 7).val 0)
    let dst := store_uint16 order dst 8 ((gHexCharPairs order).getD (id.bytes 8).val 0)
    let dst := store_uint16 order dst 9 ((gHexCharPairs order).getD (id.bytes 9).val 0)
    let dst := store_uint16 order dst 10 ((gHexCharPairs order).getD (id.bytes 10).val 0)
    let dst := store_uint16 order dst 11 ((gHexCharPairs order).getD (id.bytes 11).val 0)
    some (store_char dst 24 0)

/-- The `switch` of `bson_oid_is_valid`: `true` for the sixteen `case` labels
`0` to `9` (codes 48 to 57) and `a` to `f` (codes 97 to 102), which `break`;
`false` for `default`, which returns `FALSE`. -/
def is_valid_switch (c : bson_uint8_t) : Bool :=
  match c.val with
  | 48 | 49 | 50 | 51 | 52 | 53 | 54 | 55 | 56 | 57 => true
  | 97 | 98 | 99 | 100 | 101 | 102 => true
  | _ => false

/-- The loop `for (i = 0; i < length; i++)` of `bson_oid_is_valid`, from index
`i` with `n = length - i` iterations still to run; it ends with `TRUE` when
none is left and with `FALSE` at the first character that takes the `default`
branch. -/
def is_valid_loop (str : c_string) : Nat → Nat → Bool
  | _, 0 => true
  | i, n + 1 => if is_valid_switch (str i) then is_valid_loop str (i + 1) n else false

/-- The validator `bson_oid_is_valid (str, length)`. -/
def bson_oid_is_valid (str : Option c_string) (length : Nat) : Bool :=
  bson_return_val_if_fail str false fun str =>
    if length = 24 then is_valid_loop str 0 length else false

/-! ## Construction from data, decoding, comparison -/

/-- The raw copy `bson_oid_init_from_data (oid, data)`: `memcpy (oid, data, 12)`
behind two null checks. The source is a buffer of 12 bytes by contract. -/
def bson_oid_init_from_data (oid : Option bson_oid_t) (data : Option (Fin 12 → bson_uint8_t)) :
    Option bson_oid_t :=
  bson_return_if_fail oid oid fun _ =>
  bson_return_if_fail data oid fun data =>
    some ⟨data⟩

/-- Modelled from the spec: the value of one hex character for the decoder, a
helper of the absent `bson-oid.h`. Decoding is the inverse of encoding, so the
digits `0` to `9` (codes 48 to 57) are worth 0 to 9 and the letters `a` to `f`
(codes 97 to 102) are worth 10 to 15. The spec leaves the result on any other
character unspecified: it is whatever the parameter `other` says. -/
def bson_oid_parse_hex_char (other : bson_uint8_t → Nat) (hex : bson_uint8_t) : Nat :=
  if 48 ≤ hex.val ∧ hex.val ≤ 57 then hex.val - 48
  else if 97 ≤ hex.val ∧ hex.val ≤ 102 then hex.val - 87
  else other hex

/-- Modelled from the spec: the unchecked decoder
`bson_oid_init_from_string_unsafe` of the absent `bson-oid.h`, the inverse
mapping of the encoder: byte `i` of the identifier is made of the characters at
offsets `2 * i` (high nibble) and `2 * i + 1` (low nibble). No character is
validated. -/
def bson_oid_init_from_string_unsafe (other : bson_uint8_t → Nat) (_oid : bson_oid_t)
    (str : c_string) : bson_oid_t :=
  ⟨fun i => to_uint8 (bson_oid_parse_hex_char other (str (2 * i.val)) * 16
                      + bson_oid_parse_hex_char other (str (2 * i.val + 1)))⟩

/-- The checked entry `bson_oid_init_from_string (oid, str)`; the result is the
memory behind `oid` after the call. -/
def bson_oid_init_from_string (other : bson_uint8_t → Nat) (oid : Option bson_oid_t)
    (str : Option c_string) : Option bson_oid_t :=
  bson_return_if_fail oid oid fun o =>
  bson_return_if_fail str oid fun str =>
    some ( bson_oid_init_from_string_unsafe other o str)

/-- Modelled from the spec: `bson_oid_get_time_t_unsafe` of the absent
`bson-oid.h`, which decodes bytes 0 to 3 as a big-endian 32-bit number of
seconds since the epoch. -/
def bson_oid_get_time_t_unsafe (oid : bson_oid_t) : Int :=
  (((((oid.bytes 0).val * 256 + (oid.bytes 1).val) * 256 + (oid.bytes 2).val) * 256
      + (oid.bytes 3).val : Nat) : Int)

/-- The checked entry `bson_oid_get_time_t (oid)`. -/
def bson_oid_get_time_t (oid : Option bson_oid_t) : Int :=
  bson_return_val_if_fail oid 0 fun oid =>
    bson_oid_get_time_t_unsafe oid

/-- The checked entry `bson_oid_hash (oid)`. The unchecked hash is in the absent
`bson-oid.h` and the spec does not fix its value: it is the parameter
`bson_oid_hash_unsafe`. The result is a `bson_uint32_t`. -/
def bson_oid_hash ( bson_oid_hash_unsafe : bson_oid_t → Nat) (oid : Option bson_oid_t) : Nat :=
  bson_return_val_if_fail oid 5381 fun oid =>
    bson_oid_hash_unsafe oid % 2 ^ 32

/-- Modelled from the spec: a lexicographic byte-wise comparison of two byte
sequences: the first position where they differ decides, and the result is
negative, zero or positive. Only the sign is specified; the magnitude chosen
here is the difference of the two deciding bytes. -/
def bytewise_compare : List bson_uint8_t → List bson_uint8_t → Int
  | a :: as, b :: bs => if a = b then bytewise_compare as bs else (a.val : Int) - (b.val : Int)
  | _, _ => 0

/-- Modelled from the spec: `bson_oid_compare_unsafe` of the absent
`bson-oid.h`, the lexicographic byte-wise comparison over all 12 bytes. -/
def bson_oid_compare_unsafe (oid1 oid2 : bson_oid_t) : Int :=
  bytewise_compare oid1.toList oid2.toList

/-- The checked entry `bson_oid_compare (oid1, oid2)`. -/
def bson_oid_compare (oid1 oid2 : Option bson_oid_t) : Int :=
  bson_return_val_if_fail oid1 0 fun oid1 =>
  bson_return_val_if_fail oid2 0 fun oid2 =>
    bson_oid_compare_unsafe oid1 oid2

/-- Modelled from the spec: `bson_oid_equal_unsafe` of the absent `bson-oid.h`,
true iff all 12 bytes match. -/
def bson_oid_equal_unsafe (oid1 oid2 : bson_oid_t) : Bool :=
  (List.finRange 12).all fun i => oid1.bytes i == oid2.bytes i

/-- The checked entry `bson_oid_equal (oid1, oid2)`. -/
def bson_oid_equal (oid1 oid2 : Option bson_oid_t) : Bool :=
  bson_return_val_if_fail oid1 false fun oid1 =>
  bson_return_val_if_fail oid2 false fun oid2 =>
    bson_oid_equal_unsafe oid1 oid2

/-- The checked entry `bson_oid_copy (src, dst)`; the result is the memory
behind `dst` after the call. The unchecked copy is in the absent `bson-oid.h`
and the spec does not describe it: it is the parameter `bson_oid_copy_unsafe`. -/
def bson_oid_copy ( bson_oid_copy_unsafe : bson_oid_t → bson_oid_t → bson_oid_t)
    (src dst : Option bson_oid_t) : Option bson_oid_t :=
  bson_return_if_fail src dst fun src =>
  bson_return_if_fail dst dst fun dst =>
    some ( bson_oid_copy_unsafe src dst)

/-! ## Notions used by the statements -/

/-- The contexts a program can hold after `bson_context_init` with the given
flags: the one the initialisation returns, and every context that a later
construction call leaves behind. -/
inductive initialised (flags : bson_context_flags_t) : bson_context_real_t → Prop where
  | init (env : Env) (old : bson_context_real_t) :
      initialised flags (bson_context_init env old flags)
  | oid_init (env : Env) (oid : bson_oid_t) (ctx ctx1 : bson_context_real_t) :
      initialised flags ctx →
      (bson_oid_init env (some oid) (some ctx)).2 = some ctx1 →
      initialised flags ctx1
  | oid_init_sequence (env : Env) (oid : bson_oid_t) (ctx : bson_context_real_t) :
      initialised flags ctx →
      initialised flags (bson_oid_init_sequence env oid ctx).2

/-- The lowercase hex digit (as a character code) of a value below 16: `0` to
`9` are the codes 48 to 57 and `a` to `f` the codes 97 to 102. -/
def lower_hex_digit (n : Nat) : bson_uint8_t :=
  if n < 10 then to_uint8 (48 + n) else to_uint8 (87 + n)

/-- The character codes of a Lean string, as bytes. -/
def char_codes (s : String) : List bson_uint8_t :=
  s.toList.map fun c => to_uint8 c.toNat

/-- The C string whose memory starts with the given characters and is NUL from
there on. -/
def c_string_of (l : List bson_uint8_t) : c_string := fun i => l.getD i 0

/-- The first `n` characters behind a `char *`. -/
def c_string_take (str : c_string) (n : Nat) : List bson_uint8_t :=
  (List.range n).map str

/-- The value of a byte sequence read as one big-endian unsigned integer. -/
def big_endian_value (l : List bson_uint8_t) : Nat :=
  l.foldl (fun acc b => acc * 256 + b.val) 0

/-! ## The scenario of the specification -/

/-- The environment of the scenario: the clock reads 1700000000, the digest of
the host name starts with `AA BB CC`, the process id is `0x1234` and `rand`
returns 1. -/
def scenario_env : Env :=
  { time := 1700000000
    getpid := 0x1234
    SYS_gettid := 0
    gethostname := []
    rand := 1
    bson_md5 := fun _ i => if i = 0 then 0xAA else if i = 1 then 0xBB else if i = 2 then 0xCC else 0
    HOST_NAME_MAX := 256
    linux := true }

/-- The context of the scenario: initialised with default flags in the scenario
environment, so that its cached fingerprint is `AA BB CC`, its cached process
bytes are `12 34` and its 32-bit counter holds 1. -/
def scenario_context : bson_context_real_t :=
  bson_context_init scenario_env zeroed_context BSON_CONTEXT_NONE

/-- An identifier whose memory is all zero. -/
def zero_oid : bson_oid_t := ⟨fun _ => 0⟩

/-- The identifier of the encoding scenario: `00 11 22 33 44 55 66 77 88 99 AA BB`. -/
def scenario_oid : bson_oid_t :=
  ⟨![0x00, 0x11, 0x22, 0x33, 0x44, 0x55, 0x66, 0x77, 0x88, 0x99, 0xAA, 0xBB]⟩

/-- A character of the hex alphabet `0-9a-f`: a digit (codes 48 to 57) or a
lowercase letter from `a` to `f` (codes 97 to 102). -/
def lower_hex_char (c : bson_uint8_t) : Prop :=
  (48 ≤ c.val ∧ c.val ≤ 57) ∨ (97 ≤ c.val ∧ c.val ≤ 102)

/-- An uppercase hex letter, `A` to `F` (codes 65 to 70). -/
def upper_hex_letter (c : bson_uint8_t) : Prop :=
  65 ≤ c.val ∧ c.val ≤ 70

instance (c : bson_uint8_t) : Decidable (lower_hex_char c) :=
  inferInstanceAs (Decidable ((48 ≤ c.val ∧ c.val ≤ 57) ∨ (97 ≤ c.val ∧ c.val ≤ 102)))

instance (c : bson_uint8_t) : Decidable (upper_hex_letter c) :=
  inferInstanceAs (Decidable (65 ≤ c.val ∧ c.val ≤ 70))

/-! ## Runs of construction calls -/

/-- A run of non-null `bson_oid_init` calls on one context, each with the
environment it runs in and the identifier memory it writes to; the result is
the identifiers written, in call order. A non-null call always returns both
memories, so the second branch is never taken. -/
def oid_init_run (ctx : bson_context_real_t) : List (Env × bson_oid_t) → List bson_oid_t
  | [] => []
  | (env, oid) :: rest =>
    match bson_oid_init env (some oid) (some ctx) with
    | (some o, some c) => o :: oid_init_run c rest
    | _ => []

/-- A run of `bson_oid_init_sequence` calls on one context; the result is the
identifiers written, in call order. -/
def oid_init_sequence_run (ctx : bson_context_real_t) :
    List (Env × bson_oid_t) → List bson_oid_t
  | [] => []
  | (env, oid) :: rest =>
    (bson_oid_init_sequence env oid ctx).1
      :: oid_init_sequence_run (bson_oid_init_sequence env oid ctx).2 rest

/-- The counter field of a time-based identifier: bytes 9 to 11. -/
def counter_field (oid : bson_oid_t) : List bson_uint8_t :=
  [oid.bytes 9, oid.bytes 10, oid.bytes 11]

/-- The counter field of a sequence identifier: bytes 4 to 11. -/
def sequence_field (oid : bson_oid_t) : List bson_uint8_t :=
  oid.toList.drop 4

/-- The cached process bytes of a context, in memory order. -/
def pidbe_bytes (ctx : bson_context_real_t) : List bson_uint8_t :=
  [ctx.pidbe 0, ctx.pidbe 1]

/-- The big-endian low 16 bits of a number, as two bytes. -/
def big_endian_low16 (v : Nat) : List bson_uint8_t :=
  [to_uint8 (v % 2 ^ 16 / 2 ^ 8), to_uint8 (v % 2 ^ 16)]

/-- The host name as `bson_oid_get_host` reads it from the environment: cut at
`HOST_NAME_MAX - 1` characters and at its first NUL. -/
def host_name (env : Env) : List bson_uint8_t :=
  (env.gethostname.take (env.HOST_NAME_MAX - 1)).takeWhile (fun c => c ≠ 0)

/-- The 16-bit byte swap of a 16-bit value. -/
def byte_swap_16 (v : Nat) : Nat :=
  v % 2 ^ 8 * 2 ^ 8 + v % 2 ^ 16 / 2 ^ 8

/-- The flag set with process-id caching on and only the use-OS-thread-id flag
set. -/
def task_id_flags : bson_context_flags_t := ⟨false, false, false, true⟩

/-- The flag set with both the disable-pid-cache and the use-OS-thread-id flag
set. -/
def live_task_id_flags : bson_context_flags_t := ⟨false, false, true, true⟩

/-- The flag set with both caches disabled. -/
def no_cache_flags : bson_context_flags_t := ⟨false, true, true, false⟩

/-- The scenario environment on Linux with a thread whose OS id is 65536, a
non-zero id whose low 16 bits are zero. -/
def wide_tid_env : Env := { scenario_env with SYS_gettid := 65536 }

/-- The scenario environment on Linux with a thread whose OS id is `0x5678`;
the process id is `0x1234`. -/
def tid_env : Env := { scenario_env with SYS_gettid := 0x5678 }

/-- Three time-based or sequence calls in the scenario environment, each
writing to zeroed identifier memory. -/
def scenario_calls : List (Env × bson_oid_t) :=
  [(scenario_env, zero_oid), (scenario_env, zero_oid), (scenario_env, zero_oid)]

/-! # Theorems -/

/-! ## The strategies of an initialised context -/

/-- The strategies `bson_context_init` selects for a flag set. -/
theorem bson_context_init_selection (env : Env) (old : bson_context_real_t)
    (flags : bson_context_flags_t) :
    (bson_context_init env old flags).oid_get_host
        = (if flags.BSON_CONTEXT_DISABLE_HOST_CACHE then .bson_oid_get_host
           else .bson_oid_get_host_cached)
    ∧ (bson_context_init env old flags).oid_get_pid
        = (if flags.BSON_CONTEXT_DISABLE_PID_CACHE then .bson_oid_get_pid
           else .bson_oid_get_pid_cached)
    ∧ (bson_context_init env old flags).oid_get_seq32
        = (if flags.BSON_CONTEXT_THREAD_SAFE then .bson_oid_get_seq32_threadsafe
           else .bson_oid_get_seq32)
    ∧ (bson_context_init env old flags).oid_get_seq64
        = (if flags.BSON_CONTEXT_THREAD_SAFE then .bson_oid_get_seq64_threadsafe
           else .bson_oid_get_seq64) := by
  rcases flags with ⟨ts, hc, pc, ti⟩
  cases ts <;> cases hc <;> cases pc <;> simp [bson_context_init, memset_zero, zeroed_context]

/-- The context a non-null `bson_oid_init` leaves: only `seq32` has changed. -/
theorem bson_oid_init_context (env : Env) (oid : bson_oid_t) (ctx : bson_context_real_t) :
    (bson_oid_init env (some oid) (some ctx)).2
      = some { ctx with seq32 := (ctx.seq32 + 1) % 2 ^ 32 } := by
  rcases ctx with ⟨fl, po, pb, md, s32, s64, gh, gp, g32, g64⟩
  cases gh <;> cases gp <;> cases g32 <;>
    simp [bson_oid_init, bson_return_if_fail, call_oid_get_host, call_oid_get_pid,
      call_oid_get_seq32,
      bson_oid_get_host, bson_oid_get_host_cached, bson_oid_get_pid, bson_oid_get_pid_cached,
      bson_oid_get_seq32, bson_oid_get_seq32_threadsafe]

/-- The context `bson_oid_init_sequence` leaves: only `seq64` has changed. -/
theorem bson_oid_init_sequence_context (env : Env) (oid : bson_oid_t)
    (ctx : bson_context_real_t) :
    (bson_oid_init_sequence env oid ctx).2
      = { ctx with seq64 := (ctx.seq64 + 1) % 2 ^ 64 } := by
  rcases ctx with ⟨fl, po, pb, md, s32, s64, gh, gp, g32, g64⟩
  cases g64 <;>
    simp [bson_oid_init_sequence, call_oid_get_seq64, bson_oid_get_seq64,
      bson_oid_get_seq64_threadsafe]

/-- An initialised context keeps the strategies its flags selected. -/
theorem initialised_selection (flags : bson_context_flags_t) (ctx : bson_context_real_t)
    (h : initialised flags ctx) :
    ctx.oid_get_host
        = (if flags.BSON_CONTEXT_DISABLE_HOST_CACHE then .bson_oid_get_host
           else .bson_oid_get_host_cached)
    ∧ ctx.oid_get_pid
        = (if flags.BSON_CONTEXT_DISABLE_PID_CACHE then .bson_oid_get_pid
           else .bson_oid_get_pid_cached)
    ∧ ctx.oid_get_seq32
        = (if flags.BSON_CONTEXT_THREAD_SAFE then .bson_oid_get_seq32_threadsafe
           else .bson_oid_get_seq32)
    ∧ ctx.oid_get_seq64
        = (if flags.BSON_CONTEXT_THREAD_SAFE then .bson_oid_get_seq64_threadsafe
           else .bson_oid_get_seq64) := by
  induction h with
  | init env old => exact bson_context_init_selection env old flags
  | oid_init env oid ctx ctx1 _ hstep ih =>
    rw [bson_oid_init_context] at hstep
    cases hstep
    exact ih
  | oid_init_sequence env oid ctx _ ih =>
    rw [bson_oid_init_sequence_context]
    exact ih

/-! ## Bytes and byte sequences -/

/-- Two numbers with the same low eight bits give the same byte. -/
theorem to_uint8_congr {a b : Nat} (h : a % 256 = b % 256) : to_uint8 a = to_uint8 b := by
  apply Fin.ext
  simpa [to_uint8] using h

/-- The value of the byte made from a number. -/
theorem to_uint8_val (n : Nat) : (to_uint8 n).val = n % 256 := rfl

/-- Reading one byte of an identifier after a `memcpy` into it. -/
theorem memcpy_to_oid_bytes (oid : bson_oid_t) (off : Nat) (src : List bson_uint8_t) (n : Nat)
    (i : Fin 12) :
    (memcpy_to_oid oid off src n).bytes i
      = if off ≤ i.val ∧ i.val < off + n then src.getD (i.val - off) 0 else oid.bytes i := rfl

/-- The twelve bytes of an identifier determine it. -/
theorem bson_oid_t.toList_injective (a b : bson_oid_t) (h : a.toList = b.toList) : a = b := by
  rcases a with ⟨f⟩
  rcases b with ⟨g⟩
  simp only [bson_oid_t.toList, List.cons.injEq, and_true] at h
  obtain ⟨h0, h1, h2, h3, h4, h5, h6, h7, h8, h9, h10, h11⟩ := h
  congr 1
  funext i
  fin_cases i <;> assumption

/-- The time the code stores fits 32 bits. -/
theorem time_mod_lt (t : Int) : (t % 2 ^ 32).toNat < 2 ^ 32 := by
  have h1 : 0 ≤ t % 2 ^ 32 := Int.emod_nonneg _ (by norm_num)
  have h2 : t % 2 ^ 32 < 2 ^ 32 := Int.emod_lt_of_pos _ (by norm_num)
  omega

/-- The four bytes stored for a time. -/
theorem BSON_UINT32_TO_BE_time (t : Int) :
    BSON_UINT32_TO_BE (t % 2 ^ 32).toNat
      = [to_uint8 ((t % 2 ^ 32).toNat / 2 ^ 24), to_uint8 ((t % 2 ^ 32).toNat / 2 ^ 16),
         to_uint8 ((t % 2 ^ 32).toNat / 2 ^ 8), to_uint8 (t % 2 ^ 32).toNat] := by
  simp only [BSON_UINT32_TO_BE, Nat.mod_eq_of_lt (time_mod_lt t)]

/-- The three bytes kept of a 32-bit counter value: its low 24 bits. -/
theorem BSON_UINT32_TO_BE_drop (s : Nat) :
    (BSON_UINT32_TO_BE s).drop 1
      = [to_uint8 (s % 2 ^ 24 / 2 ^ 16), to_uint8 (s % 2 ^ 24 / 2 ^ 8),
         to_uint8 (s % 2 ^ 24)] := by
  simp only [BSON_UINT32_TO_BE, List.drop_succ_cons, List.drop_zero, List.cons.injEq, and_true]
  refine ⟨?_, ?_, ?_⟩ <;> apply to_uint8_congr <;> omega

/-! ## The identifier a time-based construction writes -/

/-- The identifier a non-null `bson_oid_init` writes, field by field: the time
field and the counter field for every context, the fingerprint and the process
field according to the strategy the context holds. -/
theorem bson_oid_init_oid (env : Env) (oid : bson_oid_t) (ctx : bson_context_real_t) :
    ∃ oid1 : bson_oid_t,
      (bson_oid_init env (some oid) (some ctx)).1 = some oid1 ∧
      oid1.bytes 0 = to_uint8 ((env.time % 2 ^ 32).toNat / 2 ^ 24) ∧
      oid1.bytes 1 = to_uint8 ((env.time % 2 ^ 32).toNat / 2 ^ 16) ∧
      oid1.bytes 2 = to_uint8 ((env.time % 2 ^ 32).toNat / 2 ^ 8) ∧
      oid1.bytes 3 = to_uint8 (env.time % 2 ^ 32).toNat ∧
      oid1.bytes 9 = to_uint8 (ctx.seq32 % 2 ^ 24 / 2 ^ 16) ∧
      oid1.bytes 10 = to_uint8 (ctx.seq32 % 2 ^ 24 / 2 ^ 8) ∧
      oid1.bytes 11 = to_uint8 (ctx.seq32 % 2 ^ 24) ∧
      (ctx.oid_get_host = .bson_oid_get_host_cached →
        oid1.bytes 4 = ctx.md5 0 ∧ oid1.bytes 5 = ctx.md5 1 ∧ oid1.bytes 6 = ctx.md5 2) ∧
      (ctx.oid_get_pid = .bson_oid_get_pid_cached →
        oid1.bytes 7 = ctx.pidbe 0 ∧ oid1.bytes 8 = ctx.pidbe 1) := by
  rcases ctx with ⟨fl, po, pb, md, s32, s64, gh, gp, g32, g64⟩
  cases gh <;> cases gp <;> cases g32 <;>
    simp only [bson_oid_init, bson_return_if_fail, call_oid_get_host, call_oid_get_pid,
      call_oid_get_seq32,
      bson_oid_get_host, bson_oid_get_host_cached, bson_oid_get_pid, bson_oid_get_pid_cached,
      bson_oid_get_seq32, bson_oid_get_seq32_threadsafe,
      BSON_UINT32_TO_BE_time, BSON_UINT32_TO_BE_drop] <;>
    refine ⟨_, rfl, rfl, rfl, rfl, rfl, rfl, rfl, rfl, ?_, ?_⟩ <;>
    intro h <;> cases h <;>
    first | exact ⟨rfl, rfl, rfl⟩ | exact ⟨rfl, rfl⟩

/-! ## C1: the layout of a time-based identifier -/

/-- C1. For a context initialised with default flags, whatever its cached
fingerprint `md5`, its cached process bytes `pidbe` and its 32-bit counter
`seq32` hold, and for every time, `bson_oid_init` produces exactly these 12
bytes: the time modulo `2 ^ 32` big-endian at offsets 0 to 3, the three
fingerprint bytes at 4 to 6, the two process bytes at 7 and 8, and the low 24
bits of the counter before its increment, big-endian, at 9 to 11. -/
theorem bson_oid_init_default_layout (env : Env) (oid : bson_oid_t)
    (ctx : bson_context_real_t) (h : initialised BSON_CONTEXT_NONE ctx) :
    ∃ oid1 : bson_oid_t,
      (bson_oid_init env (some oid) (some ctx)).1 = some oid1 ∧
      oid1.toList =
        [to_uint8 ((env.time % 2 ^ 32).toNat / 2 ^ 24),
         to_uint8 ((env.time % 2 ^ 32).toNat / 2 ^ 16),
         to_uint8 ((env.time % 2 ^ 32).toNat / 2 ^ 8),
         to_uint8 (env.time % 2 ^ 32).toNat,
         ctx.md5 0, ctx.md5 1, ctx.md5 2,
         ctx.pidbe 0, ctx.pidbe 1,
         to_uint8 (ctx.seq32 % 2 ^ 24 / 2 ^ 16),
         to_uint8 (ctx.seq32 % 2 ^ 24 / 2 ^ 8),
         to_uint8 (ctx.seq32 % 2 ^ 24)] := by
  obtain ⟨hh, hp, _, _⟩ := initialised_selection _ _ h
  obtain ⟨oid1, h1, b0, b1, b2, b3, b9, b10, b11, bh, bp⟩ := bson_oid_init_oid env oid ctx
  obtain ⟨b4, b5, b6⟩ := bh hh
  obtain ⟨b7, b8⟩ := bp hp
  exact ⟨oid1, h1, by
    simp only [bson_oid_t.toList, b0, b1, b2, b3, b4, b5, b6, b7, b8, b9, b10, b11]⟩

/-- C1, the scenario: at time 1700000000, with fingerprint `AA BB CC`, process
bytes `12 34` and the counter at 1, the identifier is
`65 53 F1 00 AA BB CC 12 34 00 00 01`, and a second call on the context the
first one left ends with the counter bytes `00 00 02`. -/
theorem bson_oid_init_default_layout_witness :
    initialised BSON_CONTEXT_NONE scenario_context ∧
    [scenario_context.md5 0, scenario_context.md5 1, scenario_context.md5 2]
      = [0xAA, 0xBB, 0xCC] ∧
    [scenario_context.pidbe 0, scenario_context.pidbe 1] = [0x12, 0x34] ∧
    scenario_context.seq32 = 1 ∧
    (bson_oid_init scenario_env (some zero_oid) (some scenario_context)).1.map bson_oid_t.toList
      = some [0x65, 0x53, 0xF1, 0x00, 0xAA, 0xBB, 0xCC, 0x12, 0x34, 0x00, 0x00, 0x01] ∧
    ∃ ctx1 : bson_context_real_t,
      (bson_oid_init scenario_env (some zero_oid) (some scenario_context)).2 = some ctx1 ∧
      (bson_oid_init scenario_env (some zero_oid) (some ctx1)).1.map bson_oid_t.toList
        = some [0x65, 0x53, 0xF1, 0x00, 0xAA, 0xBB, 0xCC, 0x12, 0x34, 0x00, 0x00, 0x02] := by
  have hinit : initialised BSON_CONTEXT_NONE scenario_context :=
    initialised.init scenario_env zeroed_context
  have hctx := bson_oid_init_context scenario_env zero_oid scenario_context
  have hinit1 := initialised.oid_init scenario_env zero_oid scenario_context _ hinit hctx
  obtain ⟨o1, e1, l1⟩ :=
    bson_oid_init_default_layout scenario_env zero_oid scenario_context hinit
  obtain ⟨o2, e2, l2⟩ :=
    bson_oid_init_default_layout scenario_env zero_oid _ hinit1
  refine ⟨hinit, by decide, by decide, by decide, ?_, _, hctx, ?_⟩
  · rw [e1, Option.map_some', l1]
    decide
  · rw [e2, Option.map_some', l2]
    decide

/-! ## C2: the encoder -/

set_option maxRecDepth 100000 in
/-- The big-endian table, entry by entry: the high byte of entry `n` is the hex
digit of the high nibble of `n` and the low byte the hex digit of its low
nibble. -/
theorem gHexCharPairs_big_endian_list :
    (gHexCharPairs .BSON_BIG_ENDIAN).map
        (fun v => (to_uint8 (v % 2 ^ 16 / 2 ^ 8), to_uint8 (v % 2 ^ 16)))
      = (List.range 256).map fun n => (lower_hex_digit (n / 16), lower_hex_digit (n % 16)) := by
  decide

set_option maxRecDepth 100000 in
/-- The little-endian table, entry by entry: the low byte of entry `n` is the hex
digit of the high nibble of `n` and the high byte the hex digit of its low
nibble. -/
theorem gHexCharPairs_little_endian_list :
    (gHexCharPairs .BSON_LITTLE_ENDIAN).map
        (fun v => (to_uint8 (v % 2 ^ 16), to_uint8 (v % 2 ^ 16 / 2 ^ 8)))
      = (List.range 256).map fun n => (lower_hex_digit (n / 16), lower_hex_digit (n % 16)) := by
  decide

/-- Reading one entry off a table that is known as a whole. -/
theorem getD_of_map_eq {α : Type} (l : List Nat) (f : Nat → α) (g : Nat → α)
    (h : l.map f = (List.range 256).map g) (n : Nat) (hn : n < 256) :
    f (l.getD n 0) = g n := by
  have hlen : l.length = 256 := by
    have := congrArg List.length h
    simpa using this
  have h1 : (l.map f)[n]? = ((List.range 256).map g)[n]? := by rw [h]
  simp only [List.getElem?_map] at h1
  rw [List.getElem?_range hn] at h1
  rw [List.getD_eq_getElem?_getD]
  rw [List.getElem?_eq_getElem (by omega)] at h1 ⊢
  simpa using h1

/-- The two characters a table entry puts into the string, in either byte
order. -/
theorem store_uint16_entry (order : byte_order) (k : Nat) (b : bson_uint8_t) :
    store_uint16 order (fun _ => 0) k ((gHexCharPairs order).getD b.val 0) (2 * k)
        = lower_hex_digit (b.val / 16) ∧
    store_uint16 order (fun _ => 0) k ((gHexCharPairs order).getD b.val 0) (2 * k + 1)
        = lower_hex_digit (b.val % 16) := by
  cases order
  · have h := getD_of_map_eq _ _ _ gHexCharPairs_big_endian_list b.val b.isLt
    simp only [Prod.mk.injEq] at h
    simpa [store_uint16] using h
  · have h := getD_of_map_eq _ _ _ gHexCharPairs_little_endian_list b.val b.isLt
    simp only [Prod.mk.injEq] at h
    simpa [store_uint16] using h

/-- A 16-bit store leaves the other offsets alone. -/
theorem store_uint16_of_ne (order : byte_order) (str : c_string) (k v j : Nat)
    (h1 : j ≠ 2 * k) (h2 : j ≠ 2 * k + 1) : store_uint16 order str k v j = str j := by
  simp [store_uint16, h1, h2]

/-- A character store leaves the other offsets alone. -/
theorem store_char_of_ne (str : c_string) (k : Nat) (c : bson_uint8_t) (j : Nat)
    (h : j ≠ k) : store_char str k c j = str j := by
  simp [store_char, h]

/-- What the encoder leaves in the string: two lowercase hex digits per byte,
the terminator, and the rest of the memory untouched. -/
theorem bson_oid_to_string_out (order : byte_order) (x : bson_oid_t) (str : c_string) :
    ∃ out : c_string,
      bson_oid_to_string order (some x) (some str) = some out ∧
      (∀ i : Fin 12,
        out (2 * i.val) = lower_hex_digit ((x.bytes i).val / 16) ∧
        out (2 * i.val + 1) = lower_hex_digit ((x.bytes i).val % 16)) ∧
      out 24 = 0 ∧
      (∀ j, 24 < j → out j = str j) := by
  refine ⟨_, rfl, fun i => ?_, rfl, fun j hj => ?_⟩
  · fin_cases i
    exacts [store_uint16_entry order 0 (x.bytes 0), store_uint16_entry order 1 (x.bytes 1),
      store_uint16_entry order 2 (x.bytes 2), store_uint16_entry order 3 (x.bytes 3),
      store_uint16_entry order 4 (x.bytes 4), store_uint16_entry order 5 (x.bytes 5),
      store_uint16_entry order 6 (x.bytes 6), store_uint16_entry order 7 (x.bytes 7),
      store_uint16_entry order 8 (x.bytes 8), store_uint16_entry order 9 (x.bytes 9),
      store_uint16_entry order 10 (x.bytes 10), store_uint16_entry order 11 (x.bytes 11)]
  · rw [store_char_of_ne _ _ _ _ (by omega)]
    repeat rw [store_uint16_of_ne _ _ _ _ _ (by omega) (by omega)]

/-- C2. For every identifier `x`, on a host of either byte order,
`bson_oid_to_string` writes exactly 24 characters and a NUL at index 24 (the
memory past it is untouched); character `2 * i` is the lowercase hex digit of
the high nibble of byte `i` and character `2 * i + 1` that of its low nibble.
The table has 256 entries and each, laid out in host byte order, is the
two-character lowercase hex rendering of its index. The digits are those of
`0123456789abcdef`, and `00 11 22 33 44 55 66 77 88 99 AA BB` encodes to
`00112233445566778899aabb`. -/
theorem bson_oid_to_string_lower_hex (order : byte_order) (x : bson_oid_t) (str : c_string) :
    (∃ out : c_string,
      bson_oid_to_string order (some x) (some str) = some out ∧
      (∀ i : Fin 12,
        out (2 * i.val) = lower_hex_digit ((x.bytes i).val / 16) ∧
        out (2 * i.val + 1) = lower_hex_digit ((x.bytes i).val % 16)) ∧
      out 24 = 0 ∧
      (∀ j, 24 < j → out j = str j)) ∧
    (gHexCharPairs order).length = 256 ∧
    (∀ b : bson_uint8_t,
      c_string_take (store_uint16 order str 0 ((gHexCharPairs order).getD b.val 0)) 2
        = [lower_hex_digit (b.val / 16), lower_hex_digit (b.val % 16)]) ∧
    (List.range 16).map lower_hex_digit = char_codes "0123456789abcdef" ∧
    (bson_oid_to_string order (some scenario_oid) (some str)).map (fun out => c_string_take out 25)
      = some (char_codes "00112233445566778899aabb" ++ [0]) := by
  refine ⟨bson_oid_to_string_out order x str, ?_, fun b => ?_, by decide, ?_⟩
  · have h1 := congrArg List.length gHexCharPairs_big_endian_list
    have h2 := congrArg List.length gHexCharPairs_little_endian_list
    cases order
    · simpa using h1
    · simpa using h2
  · have h := store_uint16_entry order 0 b
    exact congrArg₂ (fun a c => [a, c]) h.1 h.2
  · cases order <;> rfl

/-! ## C3: the validator -/

/-- The `switch` accepts exactly the hex alphabet `0-9a-f`. -/
theorem is_valid_switch_iff (c : bson_uint8_t) :
    is_valid_switch c = true ↔ lower_hex_char c := by
  unfold is_valid_switch lower_hex_char
  split <;> simp_all
  omega

/-- The loop accepts iff every character it visits is accepted. -/
theorem is_valid_loop_iff (str : c_string) (n : Nat) :
    ∀ i, is_valid_loop str i n = true
      ↔ ∀ j, i ≤ j → j < i + n → lower_hex_char (str j) := by
  induction n with
  | zero =>
    intro i
    simp only [is_valid_loop, true_iff]
    intro j h1 h2
    omega
  | succ n ih =>
    intro i
    simp only [is_valid_loop]
    constructor
    · intro h j h1 h2
      by_cases hc : is_valid_switch (str i) = true
      · rw [if_pos hc] at h
        by_cases hj : j = i
        · subst hj
          exact (is_valid_switch_iff _).1 hc
        · exact (ih (i + 1)).1 h j (by omega) (by omega)
      · rw [if_neg hc] at h
        cases h
    · intro h
      have hc : is_valid_switch (str i) = true :=
        (is_valid_switch_iff _).2 (h i (le_refl i) (by omega))
      rw [if_pos hc]
      exact (ih (i + 1)).2 fun j h1 h2 => h j (by omega) (by omega)

/-- C3. For every non-null buffer `str` and every length `n`,
`bson_oid_is_valid (str, n)` is true iff `n` is 24 and each of the characters
`str[0]` to `str[23]` is one of `0-9` or `a-f`; it is false for the lengths 23
and 25, and for any string of length `n` that holds an uppercase letter `A-F`. -/
theorem bson_oid_is_valid_iff (str : c_string) (n : Nat) :
    (bson_oid_is_valid (some str) n = true ↔
      n = 24 ∧ ∀ i, i < 24 → lower_hex_char (str i)) ∧
    bson_oid_is_valid (some str) 23 = false ∧
    bson_oid_is_valid (some str) 25 = false ∧
    (∀ i, i < n → upper_hex_letter (str i) → bson_oid_is_valid (some str) n = false) := by
  have main : bson_oid_is_valid (some str) n = true ↔
      n = 24 ∧ ∀ i, i < 24 → lower_hex_char (str i) := by
    unfold bson_oid_is_valid bson_return_val_if_fail
    by_cases hn : n = 24
    · subst hn
      simp only [if_true, true_and]
      rw [is_valid_loop_iff]
      constructor
      · intro h i hi
        exact h i (Nat.zero_le i) (by omega)
      · intro h j _ hj
        exact h j (by omega)
    · simp [hn]
  refine ⟨main, rfl, rfl, fun i hi hu => ?_⟩
  cases hv : bson_oid_is_valid (some str) n
  · rfl
  · obtain ⟨h24, hall⟩ := main.1 hv
    subst h24
    have := hall i hi
    unfold lower_hex_char at this
    unfold upper_hex_letter at hu
    omega

/-- C3, on concrete strings: the 24 lowercase characters of the encoding
scenario are accepted; the same string in uppercase is rejected. -/
theorem bson_oid_is_valid_iff_witness :
    bson_oid_is_valid (some (c_string_of (char_codes "00112233445566778899aabb"))) 24 = true ∧
    upper_hex_letter (c_string_of (char_codes "00112233445566778899AABB") 20) ∧
    bson_oid_is_valid (some (c_string_of (char_codes "00112233445566778899AABB"))) 24 = false :=
  ⟨by decide, by decide,
    (bson_oid_is_valid_iff (c_string_of (char_codes "00112233445566778899AABB")) 24).2.2.2
      20 (by decide) (by decide)⟩

/-! ## C4: the round trip through hex -/

/-- The 25 characters the encoder leaves at the start of the string depend on
the identifier only. -/
theorem bson_oid_to_string_take (order : byte_order) (x : bson_oid_t) (str : c_string) :
    (bson_oid_to_string order (some x) (some str)).map (fun out => c_string_take out 25)
      = some ((List.finRange 12).flatMap (fun i =>
          [lower_hex_digit ((x.bytes i).val / 16), lower_hex_digit ((x.bytes i).val % 16)])
          ++ [0]) := by
  obtain ⟨out, hout, hdig, h24, _⟩ := bson_oid_to_string_out order x str
  have e : c_string_take out 25
      = (List.finRange 12).flatMap (fun i => [out (2 * i.val), out (2 * i.val + 1)]) ++ [out 24] :=
    rfl
  have hhi : ∀ i : Fin 12, out (2 * i.val) = lower_hex_digit ((x.bytes i).val / 16) :=
    fun i => (hdig i).1
  have hlo : ∀ i : Fin 12, out (2 * i.val + 1) = lower_hex_digit ((x.bytes i).val % 16) :=
    fun i => (hdig i).2
  rw [hout, Option.map_some', e]
  simp only [hhi, hlo, h24]


/-- The decoder reads a lowercase hex digit back as the value it stands for. -/
theorem bson_oid_parse_hex_char_lower_hex_digit (other : bson_uint8_t → Nat) (n : Nat)
    (hn : n < 16) : bson_oid_parse_hex_char other (lower_hex_digit n) = n := by
  unfold bson_oid_parse_hex_char lower_hex_digit
  by_cases h : n < 10
  · rw [if_pos h, to_uint8_val, if_pos (by omega)]
    omega
  · rw [if_neg h, to_uint8_val, if_neg (by omega), if_pos (by omega)]
    omega

/-- Decoding the encoder's output gives the identifier back. -/
theorem bson_oid_init_from_string_to_string (other : bson_uint8_t → Nat) (order : byte_order)
    (x oid : bson_oid_t) (str : c_string) :
    bson_oid_init_from_string other (some oid) (bson_oid_to_string order (some x) (some str))
      = some x := by
  obtain ⟨out, hout, hdig, _, _⟩ := bson_oid_to_string_out order x str
  rw [hout]
  simp only [bson_oid_init_from_string, bson_return_if_fail, bson_oid_init_from_string_unsafe]
  congr 1
  rcases x with ⟨f⟩
  congr 1
  funext i
  obtain ⟨h1, h2⟩ := hdig i
  rw [h1, h2, bson_oid_parse_hex_char_lower_hex_digit _ _ (by omega),
    bson_oid_parse_hex_char_lower_hex_digit _ _ (by omega)]
  apply Fin.ext
  rw [to_uint8_val]
  simp only
  omega

/-- C4. For every identifier `x`: encoding it, decoding the string with
`bson_oid_init_from_string` and encoding the result again writes the same
string as encoding `x` does, in whatever buffer; the 25 characters it writes are
those of the first encoding. This holds for either host byte order and for
whatever the decoder does on characters outside the hex alphabet. -/
theorem bson_oid_to_string_round_trip (other : bson_uint8_t → Nat) (order : byte_order)
    (x oid : bson_oid_t) (str buf : c_string) :
    bson_oid_to_string order
        (bson_oid_init_from_string other (some oid)
          (bson_oid_to_string order (some x) (some str)))
        (some buf)
      = bson_oid_to_string order (some x) (some buf) ∧
    (bson_oid_to_string order
        (bson_oid_init_from_string other (some oid)
          (bson_oid_to_string order (some x) (some str)))
        (some buf)).map (fun out => c_string_take out 25)
      = (bson_oid_to_string order (some x) (some str)).map (fun out => c_string_take out 25) := by
  rw [bson_oid_init_from_string_to_string]
  exact ⟨rfl, by rw [bson_oid_to_string_take, bson_oid_to_string_take]⟩


/-! ## C5: the counter field of consecutive identifiers -/

/-- C5. For every context, hence for every initialised one whatever its
flags, and any two consecutive non-null `bson_oid_init` calls on it (at any
times, into any identifiers): the 24-bit big-endian value of bytes 9 to 11 of
the second identifier is that of the first plus one, modulo `2 ^ 24`; each call
leaves the 32-bit counter one higher modulo `2 ^ 32`, so that `0xFFFFFFFF` wraps
to 0. -/
theorem bson_oid_init_counter_step (env1 env2 : Env) (oid1 oid2 : bson_oid_t)
    (ctx : bson_context_real_t) :
    ∃ (o1 o2 : bson_oid_t) (c1 c2 : bson_context_real_t),
      bson_oid_init env1 (some oid1) (some ctx) = (some o1, some c1) ∧
      bson_oid_init env2 (some oid2) (some c1) = (some o2, some c2) ∧
      big_endian_value [o2.bytes 9, o2.bytes 10, o2.bytes 11]
        = (big_endian_value [o1.bytes 9, o1.bytes 10, o1.bytes 11] + 1) % 2 ^ 24 ∧
      c1.seq32 = (ctx.seq32 + 1) % 2 ^ 32 ∧
      c2.seq32 = (c1.seq32 + 1) % 2 ^ 32 ∧
      (ctx.seq32 = 0xFFFFFFFF → c1.seq32 = 0) := by
  obtain ⟨o1, h1, -, -, -, -, a9, a10, a11, -, -⟩ := bson_oid_init_oid env1 oid1 ctx
  have hc1 := bson_oid_init_context env1 oid1 ctx
  obtain ⟨o2, h2, -, -, -, -, b9, b10, b11, -, -⟩ :=
    bson_oid_init_oid env2 oid2 { ctx with seq32 := (ctx.seq32 + 1) % 2 ^ 32 }
  have hc2 := bson_oid_init_context env2 oid2 { ctx with seq32 := (ctx.seq32 + 1) % 2 ^ 32 }
  refine ⟨o1, o2, _, _, Prod.ext h1 hc1, Prod.ext h2 hc2, ?_, rfl, rfl, ?_⟩
  · simp only [big_endian_value, List.foldl, a9, a10, a11, b9, b10, b11, to_uint8_val]
    omega
  · intro h
    simp only [h]
    norm_num

/-! ## C6: the sequence construction -/

/-- The context `bson_context_init` returns has its 64-bit counter at zero. -/
theorem bson_context_init_seq64 (env : Env) (old : bson_context_real_t)
    (flags : bson_context_flags_t) : (bson_context_init env old flags).seq64 = 0 := by
  rcases flags with ⟨ts, hc, pc, ti⟩
  cases ts <;> cases hc <;> cases pc <;> simp [bson_context_init, memset_zero, zeroed_context]

/-- The identifier `bson_oid_init_sequence` writes. -/
theorem bson_oid_init_sequence_oid (env : Env) (oid : bson_oid_t) (ctx : bson_context_real_t) :
    (bson_oid_init_sequence env oid ctx).1.toList
      = [to_uint8 ((env.time % 2 ^ 32).toNat / 2 ^ 24),
         to_uint8 ((env.time % 2 ^ 32).toNat / 2 ^ 16),
         to_uint8 ((env.time % 2 ^ 32).toNat / 2 ^ 8),
         to_uint8 (env.time % 2 ^ 32).toNat,
         to_uint8 (ctx.seq64 % 2 ^ 64 / 2 ^ 56), to_uint8 (ctx.seq64 % 2 ^ 64 / 2 ^ 48),
         to_uint8 (ctx.seq64 % 2 ^ 64 / 2 ^ 40), to_uint8 (ctx.seq64 % 2 ^ 64 / 2 ^ 32),
         to_uint8 (ctx.seq64 % 2 ^ 64 / 2 ^ 24), to_uint8 (ctx.seq64 % 2 ^ 64 / 2 ^ 16),
         to_uint8 (ctx.seq64 % 2 ^ 64 / 2 ^ 8), to_uint8 (ctx.seq64 % 2 ^ 64)] := by
  rcases ctx with ⟨fl, po, pb, md, s32, s64, gh, gp, g32, g64⟩
  cases g64 <;>
    simp only [bson_oid_init_sequence, call_oid_get_seq64, bson_oid_get_seq64,
      bson_oid_get_seq64_threadsafe, BSON_UINT32_TO_BE_time] <;>
    rfl

/-- Four bytes cut from a 32-bit value, read back big-endian, give the value. -/
theorem big_endian_value_32 (v : Nat) (hv : v < 2 ^ 32) :
    big_endian_value [to_uint8 (v / 2 ^ 24), to_uint8 (v / 2 ^ 16), to_uint8 (v / 2 ^ 8),
      to_uint8 v] = v := by
  simp only [big_endian_value, List.foldl, to_uint8_val]
  omega

/-- Eight bytes cut from a 64-bit value, read back big-endian, give the value. -/
theorem big_endian_value_64 (v : Nat) (hv : v < 2 ^ 64) :
    big_endian_value [to_uint8 (v / 2 ^ 56), to_uint8 (v / 2 ^ 48), to_uint8 (v / 2 ^ 40),
      to_uint8 (v / 2 ^ 32), to_uint8 (v / 2 ^ 24), to_uint8 (v / 2 ^ 16), to_uint8 (v / 2 ^ 8),
      to_uint8 v] = v := by
  simp only [big_endian_value, List.foldl, to_uint8_val]
  omega

/-- C6. For every context, hence for every initialised one, with its 64-bit
counter at `s`, and every time `T`: `bson_oid_init_sequence` writes `T` modulo
`2 ^ 32` big-endian in bytes 0 to 3 and the 8-byte big-endian encoding of `s`,
the value before the increment, in bytes 4 to 11, and leaves the counter at
`(s + 1) % 2 ^ 64`; on the context `bson_context_init` returns, bytes 4 to 11
are all zero. -/
theorem bson_oid_init_sequence_layout (env : Env) (oid : bson_oid_t)
    (ctx : bson_context_real_t) :
    big_endian_value ((bson_oid_init_sequence env oid ctx).1.toList.take 4)
      = (env.time % 2 ^ 32).toNat ∧
    ((bson_oid_init_sequence env oid ctx).1.toList.drop 4).length = 8 ∧
    big_endian_value ((bson_oid_init_sequence env oid ctx).1.toList.drop 4)
      = ctx.seq64 % 2 ^ 64 ∧
    (bson_oid_init_sequence env oid ctx).2.seq64 = (ctx.seq64 + 1) % 2 ^ 64 ∧
    (∀ (env0 : Env) (old : bson_context_real_t) (flags : bson_context_flags_t),
      (bson_oid_init_sequence env oid (bson_context_init env0 old flags)).1.toList.drop 4
        = [0, 0, 0, 0, 0, 0, 0, 0]) := by
  refine ⟨?_, ?_, ?_, ?_, ?_⟩
  · rw [bson_oid_init_sequence_oid]
    exact big_endian_value_32 _ (time_mod_lt _)
  · rw [bson_oid_init_sequence_oid]
    rfl
  · rw [bson_oid_init_sequence_oid]
    exact big_endian_value_64 _ (Nat.mod_lt _ (by norm_num))
  · rw [bson_oid_init_sequence_context]
  · intro env0 old flags
    rw [bson_oid_init_sequence_oid, bson_context_init_seq64]
    rfl


/-! ## C7: comparison -/

/-- Folding from a start value shifts it past the bytes read. -/
theorem foldl_big_endian (l : List bson_uint8_t) (acc : Nat) :
    l.foldl (fun acc b => acc * 256 + b.val) acc
      = acc * 256 ^ l.length + big_endian_value l := by
  induction l generalizing acc with
  | nil => simp [big_endian_value]
  | cons a l ih =>
    simp only [List.foldl_cons, List.length_cons, big_endian_value]
    rw [ih (acc * 256 + a.val), ih (0 * 256 + a.val)]
    simp only [big_endian_value]
    ring

/-- The big-endian value of a sequence, by its first byte. -/
theorem big_endian_value_cons (a : bson_uint8_t) (l : List bson_uint8_t) :
    big_endian_value (a :: l) = a.val * 256 ^ l.length + big_endian_value l := by
  have h := foldl_big_endian l (0 * 256 + a.val)
  simp only [big_endian_value, List.foldl_cons] at h ⊢
  rw [h]
  simp

/-- The big-endian value of `n` bytes is below `256 ^ n`. -/
theorem big_endian_value_lt (l : List bson_uint8_t) : big_endian_value l < 256 ^ l.length := by
  induction l with
  | nil => simp [big_endian_value]
  | cons a l ih =>
    rw [big_endian_value_cons, List.length_cons, pow_succ]
    have ha : a.val + 1 ≤ 256 := a.isLt
    have := Nat.mul_le_mul_right (256 ^ l.length) ha
    rw [Nat.add_mul, Nat.one_mul] at this
    rw [Nat.mul_comm (256 ^ l.length) 256]
    omega

/-- The sign of the byte-wise comparison is the sign of the difference of the
big-endian values. -/
theorem bytewise_compare_sign (l1 : List bson_uint8_t) :
    ∀ l2 : List bson_uint8_t, l1.length = l2.length →
      Int.sign (bytewise_compare l1 l2)
        = Int.sign ((big_endian_value l1 : Int) - (big_endian_value l2 : Int)) := by
  induction l1 with
  | nil =>
    intro l2 h
    cases l2 with
    | nil => simp [bytewise_compare, big_endian_value]
    | cons b bs => simp at h
  | cons a as ih =>
    intro l2 h
    cases l2 with
    | nil => simp at h
    | cons b bs =>
      have hlen : as.length = bs.length := by simpa using h
      rw [big_endian_value_cons, big_endian_value_cons, hlen]
      simp only [bytewise_compare]
      by_cases hab : a = b
      · subst hab
        rw [if_pos rfl, ih bs hlen]
        congr 1
        push_cast
        ring
      · rw [if_neg hab]
        have h1 := big_endian_value_lt as
        have h2 := big_endian_value_lt bs
        rw [hlen] at h1
        have hne : a.val ≠ b.val := fun h => hab (Fin.ext h)
        rcases Nat.lt_or_gt_of_ne hne with hlt | hgt
        · have hm := Nat.mul_le_mul_right (256 ^ bs.length) (Nat.succ_le_of_lt hlt)
          rw [Nat.succ_mul] at hm
          rw [Int.sign_eq_neg_one_of_neg (by omega), Int.sign_eq_neg_one_of_neg]
          push_cast
          have hm' : ((a.val * 256 ^ bs.length + 256 ^ bs.length : Nat) : Int)
              ≤ ((b.val * 256 ^ bs.length : Nat) : Int) := Int.ofNat_le.2 hm
          push_cast at hm'
          have h1' : ((big_endian_value as : Nat) : Int) < ((256 ^ bs.length : Nat) : Int) :=
            Int.ofNat_lt.2 h1
          push_cast at h1'
          have h2' : (0 : Int) ≤ (big_endian_value bs : Int) := Int.ofNat_nonneg _
          linarith
        · have hm := Nat.mul_le_mul_right (256 ^ bs.length) (Nat.succ_le_of_lt hgt)
          rw [Nat.succ_mul] at hm
          rw [Int.sign_eq_one_of_pos (by omega), Int.sign_eq_one_of_pos]
          push_cast
          have hm' : ((b.val * 256 ^ bs.length + 256 ^ bs.length : Nat) : Int)
              ≤ ((a.val * 256 ^ bs.length : Nat) : Int) := Int.ofNat_le.2 hm
          push_cast at hm'
          have h2' : ((big_endian_value bs : Nat) : Int) < ((256 ^ bs.length : Nat) : Int) :=
            Int.ofNat_lt.2 h2
          push_cast at h2'
          have h1' : (0 : Int) ≤ (big_endian_value as : Int) := Int.ofNat_nonneg _
          linarith

/-- The byte-wise comparison is zero exactly on equal sequences. -/
theorem bytewise_compare_eq_zero (l1 : List bson_uint8_t) :
    ∀ l2 : List bson_uint8_t, l1.length = l2.length →
      (bytewise_compare l1 l2 = 0 ↔ l1 = l2) := by
  induction l1 with
  | nil =>
    intro l2 h
    cases l2 with
    | nil => simp [bytewise_compare]
    | cons b bs => simp at h
  | cons a as ih =>
    intro l2 h
    cases l2 with
    | nil => simp at h
    | cons b bs =>
      have hlen : as.length = bs.length := by simpa using h
      simp only [bytewise_compare, List.cons.injEq]
      by_cases hab : a = b
      · rw [if_pos hab, ih bs hlen]
        simp [hab]
      · rw [if_neg hab]
        have hne : a.val ≠ b.val := fun h => hab (Fin.ext h)
        constructor
        · intro h0
          exact absurd (by omega) hne
        · intro h0
          exact absurd h0.1 hab

/-- The byte-wise comparison is negative exactly when the first sequence comes
first in the lexicographic order of lists. -/
theorem bytewise_compare_neg_iff_lex (l1 : List bson_uint8_t) :
    ∀ l2 : List bson_uint8_t, l1.length = l2.length →
      (bytewise_compare l1 l2 < 0 ↔ List.Lex (fun a b => a < b) l1 l2) := by
  induction l1 with
  | nil =>
    intro l2 h
    cases l2 with
    | nil =>
      simp only [bytewise_compare, lt_self_iff_false, false_iff]
      intro hlt
      cases hlt
    | cons b bs => simp at h
  | cons a as ih =>
    intro l2 h
    cases l2 with
    | nil => simp at h
    | cons b bs =>
      have hlen : as.length = bs.length := by simpa using h
      simp only [bytewise_compare]
      by_cases hab : a = b
      · subst hab
        rw [if_pos rfl, ih bs hlen]
        constructor
        · intro hlt
          exact List.Lex.cons hlt
        · intro hlt
          cases hlt with
          | cons h => exact h
          | rel h => exact absurd h (lt_irrefl a)
      · rw [if_neg hab]
        have hne : a.val ≠ b.val := fun h => hab (Fin.ext h)
        constructor
        · intro hlt
          exact List.Lex.rel (Fin.lt_def.2 (by omega))
        · intro hlt
          cases hlt with
          | cons h => exact absurd rfl hab
          | rel h =>
            have := Fin.lt_def.1 h
            omega

/-- The sign of a non-null comparison is the sign of the difference of the two
identifiers read as big-endian integers. -/
theorem bson_oid_compare_sign (a b : bson_oid_t) :
    Int.sign (bson_oid_compare (some a) (some b))
      = Int.sign ((big_endian_value a.toList : Int) - (big_endian_value b.toList : Int)) :=
  bytewise_compare_sign a.toList b.toList rfl

/-- A non-null comparison is negative iff the first identifier is the smaller
big-endian integer. -/
theorem bson_oid_compare_neg_iff (a b : bson_oid_t) :
    bson_oid_compare (some a) (some b) < 0
      ↔ big_endian_value a.toList < big_endian_value b.toList := by
  rw [← Int.sign_eq_neg_one_iff_neg, bson_oid_compare_sign, Int.sign_eq_neg_one_iff_neg]
  omega

/-- A non-null comparison is positive iff the first identifier is the larger
big-endian integer. -/
theorem bson_oid_compare_pos_iff (a b : bson_oid_t) :
    0 < bson_oid_compare (some a) (some b)
      ↔ big_endian_value b.toList < big_endian_value a.toList := by
  rw [← Int.sign_eq_one_iff_pos, bson_oid_compare_sign, Int.sign_eq_one_iff_pos]
  omega

/-- A non-null comparison is zero iff the identifiers are the same. -/
theorem bson_oid_compare_eq_zero_iff (a b : bson_oid_t) :
    bson_oid_compare (some a) (some b) = 0 ↔ a = b := by
  have h := bytewise_compare_eq_zero a.toList b.toList rfl
  constructor
  · intro h0
    exact bson_oid_t.toList_injective a b (h.1 h0)
  · intro h0
    exact h.2 (congrArg bson_oid_t.toList h0)

/-- C7. For every two identifiers the sign of `bson_oid_compare` is the sign of
the comparison of their 12 bytes as big-endian unsigned integers, and it is the
lexicographic comparison of the byte sequences: negative iff the first comes
first, zero iff they are equal, positive iff the second comes first. The
relation `bson_oid_compare (a, b) <= 0` is a total order: antisymmetric,
transitive and total. An identifier with leading byte `0x01` compares negative
against one with leading byte `0x02`. -/
theorem bson_oid_compare_total_order (a b c : bson_oid_t) :
    Int.sign (bson_oid_compare (some a) (some b))
      = Int.sign ((big_endian_value a.toList : Int) - (big_endian_value b.toList : Int)) ∧
    (bson_oid_compare (some a) (some b) < 0
      ↔ List.Lex (fun x y => x < y) a.toList b.toList) ∧
    (bson_oid_compare (some a) (some b) = 0 ↔ a.toList = b.toList) ∧
    (0 < bson_oid_compare (some a) (some b)
      ↔ List.Lex (fun x y => x < y) b.toList a.toList) ∧
    (bson_oid_compare (some a) (some b) ≤ 0 → bson_oid_compare (some b) (some a) ≤ 0 →
      a = b) ∧
    (bson_oid_compare (some a) (some b) ≤ 0 → bson_oid_compare (some b) (some c) ≤ 0 →
      bson_oid_compare (some a) (some c) ≤ 0) ∧
    (bson_oid_compare (some a) (some b) ≤ 0 ∨ bson_oid_compare (some b) (some a) ≤ 0) ∧
    (a.bytes 0 = 0x01 → b.bytes 0 = 0x02 → bson_oid_compare (some a) (some b) < 0) := by
  have nab := bson_oid_compare_neg_iff a b
  have pab := bson_oid_compare_pos_iff a b
  have nba := bson_oid_compare_neg_iff b a
  have pba := bson_oid_compare_pos_iff b a
  have nbc := bson_oid_compare_neg_iff b c
  have pbc := bson_oid_compare_pos_iff b c
  have nac := bson_oid_compare_neg_iff a c
  have pac := bson_oid_compare_pos_iff a c
  refine ⟨bson_oid_compare_sign a b, bytewise_compare_neg_iff_lex a.toList b.toList rfl,
    bytewise_compare_eq_zero a.toList b.toList rfl, ?_, ?_, ?_, ?_, ?_⟩
  · rw [pab, ← nba]
    exact bytewise_compare_neg_iff_lex b.toList a.toList rfl
  · intro h1 h2
    apply (bson_oid_compare_eq_zero_iff a b).1
    omega
  · intro h1 h2
    omega
  · omega
  · intro ha hb
    show bytewise_compare a.toList b.toList < 0
    simp only [bson_oid_t.toList, bytewise_compare, ha, hb]
    rw [if_neg (by decide)]
    decide

/-- C7, on concrete identifiers: all zero against the identifier of the encoding
scenario. -/
theorem bson_oid_compare_total_order_witness :
    bson_oid_compare (some zero_oid) (some scenario_oid) ≤ 0 ∧
    bson_oid_compare (some scenario_oid) (some scenario_oid) ≤ 0 ∧
    bson_oid_compare (some zero_oid) (some scenario_oid) ≤ 0 :=
  ⟨by decide, by decide,
    (bson_oid_compare_total_order zero_oid scenario_oid scenario_oid).2.2.2.2.2.1
      (by decide) (by decide)⟩


/-! ## C8: comparison and equality -/

/-- The unchecked equality holds exactly on equal identifiers. -/
theorem bson_oid_equal_unsafe_iff (a b : bson_oid_t) :
    bson_oid_equal_unsafe a b = true ↔ a = b := by
  constructor
  · intro h
    rcases a with ⟨f⟩
    rcases b with ⟨g⟩
    simp only [ bson_oid_equal_unsafe, List.all_eq_true, List.mem_finRange, true_implies,
      beq_iff_eq] at h
    congr 1
    funext i
    exact h i
  · intro h
    subst h
    simp [ bson_oid_equal_unsafe]

/-- C8 as stated fails: with a null argument `bson_oid_compare` returns 0 while
`bson_oid_equal` returns false. -/
theorem bson_oid_compare_equal_null :
    ¬ (∀ a b : Option bson_oid_t, bson_oid_compare a b = 0 ↔ bson_oid_equal a b = true) := by
  intro h
  have h1 : bson_oid_equal none none = true := (h none none).1 rfl
  cases h1

/-- C8, amended. For all non-null identifiers `a` and `b`,
`bson_oid_compare (a, b) == 0` iff `bson_oid_equal (a, b)` is true; when either
argument is null, `bson_oid_compare` returns 0 and `bson_oid_equal` returns
false. -/
theorem bson_oid_compare_zero_iff_equal (a b : bson_oid_t) (x : Option bson_oid_t) :
    (bson_oid_compare (some a) (some b) = 0 ↔ bson_oid_equal (some a) (some b) = true) ∧
    bson_oid_compare none x = 0 ∧ bson_oid_equal none x = false ∧
    bson_oid_compare x none = 0 ∧ bson_oid_equal x none = false := by
  refine ⟨?_, rfl, rfl, ?_, ?_⟩
  · rw [bson_oid_compare_eq_zero_iff]
    exact (bson_oid_equal_unsafe_iff a b).symm
  · cases x <;> rfl
  · cases x <;> rfl


/-! ## C9: the timestamp of a time-based identifier -/

/-- The time read from an identifier is its first four bytes, big-endian. -/
theorem bson_oid_get_time_t_unsafe_eq (o : bson_oid_t) :
    bson_oid_get_time_t_unsafe o
      = (big_endian_value [o.bytes 0, o.bytes 1, o.bytes 2, o.bytes 3] : Int) := by
  simp only [ bson_oid_get_time_t_unsafe, big_endian_value, List.foldl, Nat.zero_mul, Nat.zero_add]

/-- C9. For every context and every time `T`, `bson_oid_get_time_t` applied
to the identifier `bson_oid_init` produces at time `T` returns `T` modulo
`2 ^ 32`, which is `T` itself when `0 ≤ T < 2 ^ 32`; it is bytes 0 to 3 decoded
as a big-endian 32-bit value. -/
theorem bson_oid_get_time_t_init (env : Env) (oid : bson_oid_t) (ctx : bson_context_real_t) :
    bson_oid_get_time_t (bson_oid_init env (some oid) (some ctx)).1 = env.time % 2 ^ 32 ∧
    (0 ≤ env.time → env.time < 2 ^ 32 →
      bson_oid_get_time_t (bson_oid_init env (some oid) (some ctx)).1 = env.time) ∧
    (∃ oid1 : bson_oid_t, (bson_oid_init env (some oid) (some ctx)).1 = some oid1 ∧
      bson_oid_get_time_t (some oid1)
        = (big_endian_value [oid1.bytes 0, oid1.bytes 1, oid1.bytes 2, oid1.bytes 3] : Int)) := by
  obtain ⟨o1, h1, b0, b1, b2, b3, -⟩ := bson_oid_init_oid env oid ctx
  have hv := big_endian_value_32 _ (time_mod_lt env.time)
  have key : bson_oid_get_time_t (some o1) = env.time % 2 ^ 32 := by
    show bson_oid_get_time_t_unsafe o1 = _
    rw [bson_oid_get_time_t_unsafe_eq, b0, b1, b2, b3, hv]
    exact Int.toNat_of_nonneg (Int.emod_nonneg _ (by norm_num))
  rw [h1]
  exact ⟨key, fun h0 h32 => key.trans (Int.emod_eq_of_lt h0 h32), o1, rfl,
    bson_oid_get_time_t_unsafe_eq o1⟩

/-- C9, in the scenario: the identifier made at time 1700000000 gives
1700000000 back. -/
theorem bson_oid_get_time_t_init_witness :
    (0 : Int) ≤ scenario_env.time ∧ scenario_env.time < 2 ^ 32 ∧
    bson_oid_get_time_t (bson_oid_init scenario_env (some zero_oid) (some scenario_context)).1
      = 1700000000 :=
  ⟨by decide, by decide,
    (bson_oid_get_time_t_init scenario_env zero_oid scenario_context).2.1
      (by decide) (by decide)⟩

/-! ## C10: null arguments -/

/-- C10. With a null argument the checked operations return their fixed default
and change nothing: `bson_oid_compare` returns 0, `bson_oid_equal` false,
`bson_oid_hash` 5381, `bson_oid_get_time_t` 0, `bson_oid_is_valid` false;
`bson_oid_to_string`, `bson_oid_init`, `bson_oid_init_from_data`,
`bson_oid_init_from_string` and `bson_oid_copy` leave their output, and
`bson_oid_init` the context, as they were. -/
theorem bson_oid_null_arguments (env : Env) (order : byte_order)
    ( bson_oid_hash_unsafe : bson_oid_t → Nat)
    ( bson_oid_copy_unsafe : bson_oid_t → bson_oid_t → bson_oid_t)
    (other : bson_uint8_t → Nat)
    (x : Option bson_oid_t) (ctx : Option bson_context_real_t) (str : Option c_string)
    (data : Option (Fin 12 → bson_uint8_t)) (n : Nat) :
    bson_oid_compare none x = 0 ∧ bson_oid_compare x none = 0 ∧
    bson_oid_equal none x = false ∧ bson_oid_equal x none = false ∧
    bson_oid_hash bson_oid_hash_unsafe none = 5381 ∧
    bson_oid_get_time_t none = 0 ∧
    bson_oid_is_valid none n = false ∧
    bson_oid_to_string order none str = str ∧
    bson_oid_to_string order x none = none ∧
    bson_oid_init env none ctx = (none, ctx) ∧
    bson_oid_init env x none = (x, none) ∧
    bson_oid_init_from_data none data = none ∧
    bson_oid_init_from_data x none = x ∧
    bson_oid_init_from_string other none str = none ∧
    bson_oid_init_from_string other x none = x ∧
    bson_oid_copy bson_oid_copy_unsafe none x = x ∧
    bson_oid_copy bson_oid_copy_unsafe x none = none := by
  refine ⟨rfl, ?_, rfl, ?_, rfl, rfl, rfl, rfl, ?_, rfl, ?_, rfl, ?_, rfl, ?_, rfl, ?_⟩ <;>
    cases x <;> rfl


/-! ## C11: the counters after initialisation -/

/-- The 32-bit counter `bson_context_init` leaves. -/
theorem bson_context_init_seq32 (env : Env) (old : bson_context_real_t)
    (flags : bson_context_flags_t) :
    (bson_context_init env old flags).seq32 = env.rand % 0xFFFF % 2 ^ 32 := by
  rcases flags with ⟨ts, hc, pc, ti⟩
  cases ts <;> cases hc <;> cases pc <;> simp [bson_context_init, memset_zero, zeroed_context]

/-- C11. For every flag set and every value the random source returns,
`bson_context_init` leaves the 32-bit counter in the range 0 to 65535 (it is the
random value modulo `0xFFFF`) and the 64-bit counter at 0, whatever the context
held before the call. -/
theorem bson_context_init_counters (env : Env) (old old1 : bson_context_real_t)
    (flags : bson_context_flags_t) :
    (bson_context_init env old flags).seq32 ≤ 65535 ∧
    (bson_context_init env old flags).seq32 = env.rand % 65535 ∧
    (bson_context_init env old flags).seq64 = 0 ∧
    bson_context_init env old flags = bson_context_init env old1 flags := by
  have h := bson_context_init_seq32 env old flags
  refine ⟨by omega, by omega, bson_context_init_seq64 env old flags, rfl⟩

/-! ## C12: the strategies selected by the flags -/

/-- C12. For every flag set, `bson_context_init` selects the four strategies
from the flags alone: the live fingerprint iff the disable-host-cache flag is
set and the cached one otherwise, the live process id iff the
disable-pid-cache flag is set and the cached one otherwise, the atomic 32-bit
and 64-bit counters iff the thread-safe flag is set and the plain ones
otherwise. Neither `bson_oid_init` nor `bson_oid_init_sequence` changes the
selection a context holds. -/
theorem bson_context_init_strategies (env : Env) (old : bson_context_real_t)
    (flags : bson_context_flags_t) (env1 : Env) (oid : bson_oid_t)
    (ctx : bson_context_real_t) :
    (((bson_context_init env old flags).oid_get_host = .bson_oid_get_host
        ↔ flags.BSON_CONTEXT_DISABLE_HOST_CACHE = true) ∧
     ((bson_context_init env old flags).oid_get_host = .bson_oid_get_host_cached
        ↔ flags.BSON_CONTEXT_DISABLE_HOST_CACHE = false)) ∧
    (((bson_context_init env old flags).oid_get_pid = .bson_oid_get_pid
        ↔ flags.BSON_CONTEXT_DISABLE_PID_CACHE = true) ∧
     ((bson_context_init env old flags).oid_get_pid = .bson_oid_get_pid_cached
        ↔ flags.BSON_CONTEXT_DISABLE_PID_CACHE = false)) ∧
    (((bson_context_init env old flags).oid_get_seq32 = .bson_oid_get_seq32_threadsafe
        ↔ flags.BSON_CONTEXT_THREAD_SAFE = true) ∧
     ((bson_context_init env old flags).oid_get_seq32 = .bson_oid_get_seq32
        ↔ flags.BSON_CONTEXT_THREAD_SAFE = false)) ∧
    (((bson_context_init env old flags).oid_get_seq64 = .bson_oid_get_seq64_threadsafe
        ↔ flags.BSON_CONTEXT_THREAD_SAFE = true) ∧
     ((bson_context_init env old flags).oid_get_seq64 = .bson_oid_get_seq64
        ↔ flags.BSON_CONTEXT_THREAD_SAFE = false)) ∧
    (∃ ctx1 : bson_context_real_t,
      (bson_oid_init env1 (some oid) (some ctx)).2 = some ctx1 ∧
      ctx1.oid_get_host = ctx.oid_get_host ∧ ctx1.oid_get_pid = ctx.oid_get_pid ∧
      ctx1.oid_get_seq32 = ctx.oid_get_seq32 ∧ ctx1.oid_get_seq64 = ctx.oid_get_seq64) ∧
    ((bson_oid_init_sequence env1 oid ctx).2.oid_get_host = ctx.oid_get_host ∧
     (bson_oid_init_sequence env1 oid ctx).2.oid_get_pid = ctx.oid_get_pid ∧
     (bson_oid_init_sequence env1 oid ctx).2.oid_get_seq32 = ctx.oid_get_seq32 ∧
     (bson_oid_init_sequence env1 oid ctx).2.oid_get_seq64 = ctx.oid_get_seq64) := by
  obtain ⟨hh, hp, h32, h64⟩ := bson_context_init_selection env old flags
  rw [hh, hp, h32, h64, bson_oid_init_sequence_context]
  refine ⟨?_, ?_, ?_, ?_, ⟨_, bson_oid_init_context env1 oid ctx, rfl, rfl, rfl, rfl⟩,
    rfl, rfl, rfl, rfl⟩
  · cases flags.BSON_CONTEXT_DISABLE_HOST_CACHE <;> simp
  · cases flags.BSON_CONTEXT_DISABLE_PID_CACHE <;> simp
  · cases flags.BSON_CONTEXT_THREAD_SAFE <;> simp
  · cases flags.BSON_CONTEXT_THREAD_SAFE <;> simp

/-! ## C13: the cached process bytes and the thread id -/

/-- The process bytes `bson_context_init` caches when process-id caching is
on. -/
theorem bson_context_init_pidbe (env : Env) (old : bson_context_real_t)
    (flags : bson_context_flags_t) (hcache : flags.BSON_CONTEXT_DISABLE_PID_CACHE = false) :
    pidbe_bytes (bson_context_init env old flags)
      = if (env.linux && flags.BSON_CONTEXT_USE_TASK_ID) = true ∧ gettid env ≠ 0
        then big_endian_low16 (gettid env) else big_endian_low16 env.getpid := by
  rcases flags with ⟨ts, hc, pc, ti⟩
  simp only at hcache
  subst hcache
  by_cases h : (env.linux && ti) = true ∧ gettid env ≠ 0
  · rw [if_pos h]
    obtain ⟨h1, h2⟩ := h
    cases ts <;> cases hc <;>
      simp [bson_context_init, memset_zero, zeroed_context, pidbe_bytes, big_endian_low16,
        BSON_UINT16_TO_BE, h1, h2]
  · rw [if_neg h]
    by_cases h1 : (env.linux && ti) = true
    · have h2 : gettid env = 0 := by
        by_contra hne
        exact h ⟨h1, hne⟩
      cases ts <;> cases hc <;>
        simp [bson_context_init, memset_zero, zeroed_context, pidbe_bytes, big_endian_low16,
          BSON_UINT16_TO_BE, h1, h2]
    · cases ts <;> cases hc <;>
        simp [bson_context_init, memset_zero, zeroed_context, pidbe_bytes, big_endian_low16,
          BSON_UINT16_TO_BE, h1]

/-- C13 as stated fails: on Linux with the use-OS-thread-id flag and a thread
id of 65536, which is not zero, `gettid` returns 0 (its return type is
`bson_uint16_t`) and the cached bytes are those of the process id, `12 34`,
not the low 16 bits of the thread id, `00 00`. -/
theorem bson_context_init_pidbe_wide_tid :
    wide_tid_env.linux = true ∧ wide_tid_env.SYS_gettid ≠ 0 ∧
    task_id_flags.BSON_CONTEXT_DISABLE_PID_CACHE = false ∧
    task_id_flags.BSON_CONTEXT_USE_TASK_ID = true ∧
    pidbe_bytes (bson_context_init wide_tid_env zeroed_context task_id_flags) = [0x12, 0x34] ∧
    big_endian_low16 wide_tid_env.SYS_gettid = [0x00, 0x00] ∧
    pidbe_bytes (bson_context_init wide_tid_env zeroed_context task_id_flags)
      ≠ big_endian_low16 wide_tid_env.SYS_gettid := by
  decide

/-- C13, amended. On Linux with process-id caching on: with the
use-OS-thread-id flag, the cached process bytes are the big-endian low 16 bits
of the thread id whenever these 16 bits are not all zero, and the big-endian low
16 bits of the process id when they are; without the flag they are always the
big-endian low 16 bits of the process id. -/
theorem bson_context_init_pidbe_task_id (env : Env) (old : bson_context_real_t)
    (flags : bson_context_flags_t) (hlinux : env.linux = true)
    (hcache : flags.BSON_CONTEXT_DISABLE_PID_CACHE = false) :
    (flags.BSON_CONTEXT_USE_TASK_ID = true → env.SYS_gettid % 2 ^ 16 ≠ 0 →
      pidbe_bytes (bson_context_init env old flags) = big_endian_low16 env.SYS_gettid) ∧
    (flags.BSON_CONTEXT_USE_TASK_ID = true → env.SYS_gettid % 2 ^ 16 = 0 →
      pidbe_bytes (bson_context_init env old flags) = big_endian_low16 env.getpid) ∧
    (flags.BSON_CONTEXT_USE_TASK_ID = false →
      pidbe_bytes (bson_context_init env old flags) = big_endian_low16 env.getpid) := by
  rw [bson_context_init_pidbe env old flags hcache]
  refine ⟨fun hf ht => ?_, fun hf ht => ?_, fun hf => ?_⟩
  · rw [if_pos ⟨by simp [hlinux, hf], ht⟩]
    simp only [big_endian_low16, gettid, Nat.mod_mod]
  · rw [if_neg]
    intro h
    exact h.2 ht
  · rw [if_neg]
    intro h
    simp [hf] at h

/-- C13, on concrete inputs: on Linux with the flag, the thread id `0x5678` and
the process id `0x1234`, the cached bytes are `56 78`. -/
theorem bson_context_init_pidbe_task_id_witness :
    tid_env.linux = true ∧ task_id_flags.BSON_CONTEXT_DISABLE_PID_CACHE = false ∧
    task_id_flags.BSON_CONTEXT_USE_TASK_ID = true ∧ tid_env.SYS_gettid % 2 ^ 16 ≠ 0 ∧
    pidbe_bytes (bson_context_init tid_env zeroed_context task_id_flags) = [0x56, 0x78] :=
  ⟨rfl, rfl, rfl, by decide,
    ((bson_context_init_pidbe_task_id tid_env zeroed_context task_id_flags rfl rfl).1
      rfl (by decide)).trans (by decide)⟩

/-! ## C15: distinct counter fields along a run -/

/-- One step of a run of `bson_oid_init` calls. -/
theorem oid_init_run_cons (ctx : bson_context_real_t) (env : Env) (oid : bson_oid_t)
    (rest : List (Env × bson_oid_t)) :
    ∃ o : bson_oid_t,
      (bson_oid_init env (some oid) (some ctx)).1 = some o ∧
      oid_init_run ctx ((env, oid) :: rest)
        = o :: oid_init_run { ctx with seq32 := (ctx.seq32 + 1) % 2 ^ 32 } rest := by
  obtain ⟨o, h1, -⟩ := bson_oid_init_oid env oid ctx
  have h2 := bson_oid_init_context env oid ctx
  have h : bson_oid_init env (some oid) (some ctx)
      = (some o, some { ctx with seq32 := (ctx.seq32 + 1) % 2 ^ 32 }) := Prod.ext h1 h2
  refine ⟨o, h1, ?_⟩
  simp only [oid_init_run, h]

/-- The counter field of the identifier the `k`-th call of a run writes. -/
theorem oid_init_run_counter (calls : List (Env × bson_oid_t)) :
    ∀ (ctx : bson_context_real_t) (k : Nat), k < calls.length →
      ∃ o : bson_oid_t, (oid_init_run ctx calls)[k]? = some o ∧
        big_endian_value (counter_field o) = (ctx.seq32 + k) % 2 ^ 24 := by
  induction calls with
  | nil =>
    intro ctx k hk
    simp at hk
  | cons c rest ih =>
    intro ctx k hk
    obtain ⟨env, oid⟩ := c
    obtain ⟨o, h1, hrun⟩ := oid_init_run_cons ctx env oid rest
    rw [hrun]
    cases k with
    | zero =>
      refine ⟨o, by simp, ?_⟩
      obtain ⟨o1, h1', -, -, -, -, b9, b10, b11, -⟩ := bson_oid_init_oid env oid ctx
      rw [h1] at h1'
      cases h1'
      simp only [counter_field, big_endian_value, List.foldl, b9, b10, b11, to_uint8_val]
      omega
    | succ k =>
      obtain ⟨o2, h2, hv⟩ := ih { ctx with seq32 := (ctx.seq32 + 1) % 2 ^ 32 } k
        (by simpa using hk)
      refine ⟨o2, by simpa using h2, ?_⟩
      rw [hv]
      simp only
      omega

/-- The sequence field of the identifier the `k`-th call of a run writes. -/
theorem oid_init_sequence_run_counter (calls : List (Env × bson_oid_t)) :
    ∀ (ctx : bson_context_real_t) (k : Nat), k < calls.length →
      ∃ o : bson_oid_t, (oid_init_sequence_run ctx calls)[k]? = some o ∧
        big_endian_value (sequence_field o) = (ctx.seq64 + k) % 2 ^ 64 := by
  induction calls with
  | nil =>
    intro ctx k hk
    simp at hk
  | cons c rest ih =>
    intro ctx k hk
    obtain ⟨env, oid⟩ := c
    cases k with
    | zero =>
      refine ⟨(bson_oid_init_sequence env oid ctx).1, by simp [oid_init_sequence_run], ?_⟩
      rw [sequence_field, bson_oid_init_sequence_oid]
      simpa using big_endian_value_64 _ (Nat.mod_lt ctx.seq64 (by norm_num))
    | succ k =>
      obtain ⟨o2, h2, hv⟩ := ih (bson_oid_init_sequence env oid ctx).2 k (by simpa using hk)
      refine ⟨o2, by simpa [oid_init_sequence_run] using h2, ?_⟩
      rw [hv, bson_oid_init_sequence_context]
      simp only
      omega

/-- C15. For every context and every run of `bson_oid_init` calls on it, in
whatever environments (times, host names, process ids): the identifiers of two
calls `i < j` with `j - i < 2 ^ 24` differ in bytes 9 to 11, hence are distinct.
Likewise for a run of `bson_oid_init_sequence` calls: two calls fewer than
`2 ^ 64` apart differ in bytes 4 to 11. -/
theorem oid_init_run_distinct (ctx : bson_context_real_t) (calls : List (Env × bson_oid_t))
    (i j : Nat) (hij : i < j) (hj : j < calls.length) :
    (j - i < 2 ^ 24 →
      ∃ a b : bson_oid_t,
        (oid_init_run ctx calls)[i]? = some a ∧ (oid_init_run ctx calls)[j]? = some b ∧
        counter_field a ≠ counter_field b ∧ a ≠ b) ∧
    (j - i < 2 ^ 64 →
      ∃ a b : bson_oid_t,
        (oid_init_sequence_run ctx calls)[i]? = some a ∧
        (oid_init_sequence_run ctx calls)[j]? = some b ∧
        sequence_field a ≠ sequence_field b ∧ a ≠ b) := by
  constructor
  · intro hd
    obtain ⟨a, ha, va⟩ := oid_init_run_counter calls ctx i (by omega)
    obtain ⟨b, hb, vb⟩ := oid_init_run_counter calls ctx j hj
    have hne : counter_field a ≠ counter_field b := by
      intro h
      rw [h, vb] at va
      omega
    exact ⟨a, b, ha, hb, hne, fun h => hne (by rw [h])⟩
  · intro hd
    obtain ⟨a, ha, va⟩ := oid_init_sequence_run_counter calls ctx i (by omega)
    obtain ⟨b, hb, vb⟩ := oid_init_sequence_run_counter calls ctx j hj
    have hne : sequence_field a ≠ sequence_field b := by
      intro h
      rw [h, vb] at va
      omega
    exact ⟨a, b, ha, hb, hne, fun h => hne (by rw [h])⟩

/-- C15, on the scenario: the first and the third of three calls. -/
theorem oid_init_run_distinct_witness :
    (0 : Nat) < 2 ∧ 2 < scenario_calls.length ∧
    (∃ a b : bson_oid_t,
      (oid_init_run scenario_context scenario_calls)[0]? = some a ∧
      (oid_init_run scenario_context scenario_calls)[2]? = some b ∧
      counter_field a ≠ counter_field b ∧ a ≠ b) ∧
    (∃ a b : bson_oid_t,
      (oid_init_sequence_run scenario_context scenario_calls)[0]? = some a ∧
      (oid_init_sequence_run scenario_context scenario_calls)[2]? = some b ∧
      sequence_field a ≠ sequence_field b ∧ a ≠ b) :=
  ⟨by decide, by decide,
    (oid_init_run_distinct scenario_context scenario_calls 0 2 (by decide) (by decide)).1
      (by decide),
    (oid_init_run_distinct scenario_context scenario_calls 0 2 (by decide) (by decide)).2
      (by decide)⟩

/-! ## C16: what a construction leaves unchanged -/

/-- C16. For every context, whatever strategies it holds: `bson_oid_init`
leaves the flags, the cached fingerprint, the cached process bytes, the 64-bit
counter and the four strategies as they were and changes the 32-bit counter
only; `bson_oid_init_sequence` leaves everything, the 32-bit counter included,
as it was and changes the 64-bit counter only. -/
theorem bson_oid_init_frame (env : Env) (oid : bson_oid_t) (ctx : bson_context_real_t) :
    (∃ ctx1 : bson_context_real_t,
      (bson_oid_init env (some oid) (some ctx)).2 = some ctx1 ∧
      ctx1.flags = ctx.flags ∧ ctx1.pidbe_once = ctx.pidbe_once ∧
      ctx1.md5 = ctx.md5 ∧ ctx1.pidbe = ctx.pidbe ∧ ctx1.seq64 = ctx.seq64 ∧
      ctx1.oid_get_host = ctx.oid_get_host ∧ ctx1.oid_get_pid = ctx.oid_get_pid ∧
      ctx1.oid_get_seq32 = ctx.oid_get_seq32 ∧ ctx1.oid_get_seq64 = ctx.oid_get_seq64 ∧
      ctx1.seq32 = (ctx.seq32 + 1) % 2 ^ 32) ∧
    ((bson_oid_init_sequence env oid ctx).2.flags = ctx.flags ∧
     (bson_oid_init_sequence env oid ctx).2.pidbe_once = ctx.pidbe_once ∧
     (bson_oid_init_sequence env oid ctx).2.md5 = ctx.md5 ∧
     (bson_oid_init_sequence env oid ctx).2.pidbe = ctx.pidbe ∧
     (bson_oid_init_sequence env oid ctx).2.seq32 = ctx.seq32 ∧
     (bson_oid_init_sequence env oid ctx).2.oid_get_host = ctx.oid_get_host ∧
     (bson_oid_init_sequence env oid ctx).2.oid_get_pid = ctx.oid_get_pid ∧
     (bson_oid_init_sequence env oid ctx).2.oid_get_seq32 = ctx.oid_get_seq32 ∧
     (bson_oid_init_sequence env oid ctx).2.oid_get_seq64 = ctx.oid_get_seq64 ∧
     (bson_oid_init_sequence env oid ctx).2.seq64 = (ctx.seq64 + 1) % 2 ^ 64) := by
  rw [bson_oid_init_sequence_context]
  exact ⟨⟨_, bson_oid_init_context env oid ctx,
      rfl, rfl, rfl, rfl, rfl, rfl, rfl, rfl, rfl, rfl⟩,
    rfl, rfl, rfl, rfl, rfl, rfl, rfl, rfl, rfl, rfl⟩


/-! ## C17: the two variants of the table -/

set_option maxRecDepth 100000 in
/-- The little-endian table is the big-endian table with every entry byte
swapped. -/
theorem gHexCharPairs_byte_swap :
    gHexCharPairs .BSON_LITTLE_ENDIAN = (gHexCharPairs .BSON_BIG_ENDIAN).map byte_swap_16 := by
  decide

set_option maxRecDepth 100000 in
/-- Both tables have 256 entries. -/
theorem gHexCharPairs_lengths :
    (gHexCharPairs .BSON_BIG_ENDIAN).length = 256 ∧
    (gHexCharPairs .BSON_LITTLE_ENDIAN).length = 256 := by
  decide

/-- C17. Both variants of `gHexCharPairs` have exactly 256 entries, every
entry of the little-endian variant is the 16-bit byte swap of the entry of the
big-endian variant at the same index, and `bson_oid_to_string` writes the same
24 characters and terminator for the same identifier on a big-endian and on a
little-endian host. -/
theorem gHexCharPairs_byte_order_agree (x : bson_oid_t) (str1 str2 : c_string) :
    (gHexCharPairs .BSON_BIG_ENDIAN).length = 256 ∧
    (gHexCharPairs .BSON_LITTLE_ENDIAN).length = 256 ∧
    (∀ i : Fin 256,
      (gHexCharPairs .BSON_LITTLE_ENDIAN).getD i.val 0
        = byte_swap_16 ((gHexCharPairs .BSON_BIG_ENDIAN).getD i.val 0)) ∧
    (bson_oid_to_string .BSON_BIG_ENDIAN (some x) (some str1)).map
        (fun out => c_string_take out 25)
      = (bson_oid_to_string .BSON_LITTLE_ENDIAN (some x) (some str2)).map
        (fun out => c_string_take out 25) ∧
    byte_swap_16 0x3061 = 0x6130 := by
  refine ⟨gHexCharPairs_lengths.1, gHexCharPairs_lengths.2, ?_, ?_, by decide⟩
  · intro i
    have hlen := gHexCharPairs_lengths.1
    have hi := i.isLt
    rw [gHexCharPairs_byte_swap, List.getD_eq_getElem?_getD, List.getD_eq_getElem?_getD,
      List.getElem?_map, List.getElem?_eq_getElem (by omega)]
    rfl
  · rw [bson_oid_to_string_take, bson_oid_to_string_take]

/-! ## C18: the thread id with process-id caching disabled -/

/-- C18, at the failing input: on Linux, with both the use-OS-thread-id and the
disable-pid-cache flag, a process id of `0x1234` and a thread id of `0x5678`,
bytes 7 and 8 of the identifiers `bson_oid_init` returns are `12 34`, the
process id, and not `56 78`; with process-id caching on, the same environment
gives `56 78`. -/
theorem bson_oid_get_pid_ignores_task_id :
    tid_env.linux = true ∧ tid_env.getpid = 0x1234 ∧ tid_env.SYS_gettid = 0x5678 ∧
    live_task_id_flags.BSON_CONTEXT_USE_TASK_ID = true ∧
    live_task_id_flags.BSON_CONTEXT_DISABLE_PID_CACHE = true ∧
    (oid_init_run (bson_context_init tid_env zeroed_context live_task_id_flags)
        [(tid_env, zero_oid), (tid_env, zero_oid)]).map (fun o => [o.bytes 7, o.bytes 8])
      = [[0x12, 0x34], [0x12, 0x34]] ∧
    big_endian_low16 tid_env.SYS_gettid = [0x56, 0x78] ∧
    (oid_init_run (bson_context_init tid_env zeroed_context task_id_flags)
        [(tid_env, zero_oid)]).map (fun o => [o.bytes 7, o.bytes 8])
      = [[0x56, 0x78]] := by
  decide

/-! ## C19: the encoder's output is valid -/

/-- A lowercase hex digit is a character of the hex alphabet. -/
theorem lower_hex_char_lower_hex_digit (n : Nat) (hn : n < 16) :
    lower_hex_char (lower_hex_digit n) := by
  unfold lower_hex_char lower_hex_digit
  by_cases h : n < 10
  · rw [if_pos h, to_uint8_val]
    omega
  · rw [if_neg h, to_uint8_val]
    omega

/-- C19. For every identifier `x`, on a host of either byte order,
`bson_oid_is_valid` applied to the string `bson_oid_to_string` has written,
with length 24, returns true. -/
theorem bson_oid_is_valid_to_string (order : byte_order) (x : bson_oid_t) (str : c_string) :
    bson_oid_is_valid (bson_oid_to_string order (some x) (some str)) 24 = true := by
  obtain ⟨out, hout, hdig, -, -⟩ := bson_oid_to_string_out order x str
  rw [hout]
  show (if 24 = 24 then is_valid_loop out 0 24 else false) = true
  rw [if_pos rfl, is_valid_loop_iff]
  intro j _ hj
  have hj24 : j < 24 := by omega
  obtain ⟨h1, h2⟩ := hdig ⟨j / 2, by omega⟩
  rcases Nat.mod_two_eq_zero_or_one j with h | h
  · have e : j = 2 * (j / 2) := by omega
    rw [e]
    simp only at h1
    rw [h1]
    exact lower_hex_char_lower_hex_digit _ (by omega)
  · have e : j = 2 * (j / 2) + 1 := by omega
    rw [e]
    simp only at h2
    rw [h2]
    exact lower_hex_char_lower_hex_digit _ (Nat.mod_lt _ (by norm_num))

/-! ## C20: cached and live strategies agree -/

/-- The fingerprint and process bytes a non-null `bson_oid_init` writes with the
live strategies. -/
theorem bson_oid_init_oid_live (env : Env) (oid : bson_oid_t) (ctx : bson_context_real_t) :
    ∃ oid1 : bson_oid_t,
      (bson_oid_init env (some oid) (some ctx)).1 = some oid1 ∧
      (ctx.oid_get_host = .bson_oid_get_host →
        oid1.bytes 4 = env.bson_md5 (host_name env) 0 ∧
        oid1.bytes 5 = env.bson_md5 (host_name env) 1 ∧
        oid1.bytes 6 = env.bson_md5 (host_name env) 2) ∧
      (ctx.oid_get_pid = .bson_oid_get_pid →
        [oid1.bytes 7, oid1.bytes 8] = big_endian_low16 env.getpid) := by
  rcases ctx with ⟨fl, po, pb, md, s32, s64, gh, gp, g32, g64⟩
  cases gh <;> cases gp <;> cases g32 <;>
    simp only [bson_oid_init, bson_return_if_fail, call_oid_get_host, call_oid_get_pid,
      call_oid_get_seq32,
      bson_oid_get_host, bson_oid_get_host_cached, bson_oid_get_pid, bson_oid_get_pid_cached,
      bson_oid_get_seq32, bson_oid_get_seq32_threadsafe] <;>
    refine ⟨_, rfl, ?_, ?_⟩ <;>
    intro h <;> cases h <;>
    first | exact ⟨rfl, rfl, rfl⟩ | rfl

/-- What `bson_context_init` caches with default flags. -/
theorem bson_context_init_default_cache (env : Env) (old : bson_context_real_t) :
    (bson_context_init env old BSON_CONTEXT_NONE).md5 0 = env.bson_md5 (host_name env) 0 ∧
    (bson_context_init env old BSON_CONTEXT_NONE).md5 1 = env.bson_md5 (host_name env) 1 ∧
    (bson_context_init env old BSON_CONTEXT_NONE).md5 2 = env.bson_md5 (host_name env) 2 ∧
    pidbe_bytes (bson_context_init env old BSON_CONTEXT_NONE)
      = big_endian_low16 env.getpid := by
  refine ⟨rfl, rfl, rfl, ?_⟩
  rw [bson_context_init_pidbe env old BSON_CONTEXT_NONE rfl, if_neg]
  simp [BSON_CONTEXT_NONE]

/-- A context with the cached strategies and one with the live strategies,
holding the same counter, write the same identifiers call after call, as long
as the cache holds what the environment of each call gives. -/
theorem oid_init_run_cached_eq_live (env : Env) (times : List (Int × bson_oid_t)) :
    ∀ c1 c2 : bson_context_real_t,
      c1.oid_get_host = .bson_oid_get_host_cached → c1.oid_get_pid = .bson_oid_get_pid_cached →
      c2.oid_get_host = .bson_oid_get_host → c2.oid_get_pid = .bson_oid_get_pid →
      c1.md5 0 = env.bson_md5 (host_name env) 0 → c1.md5 1 = env.bson_md5 (host_name env) 1 →
      c1.md5 2 = env.bson_md5 (host_name env) 2 →
      pidbe_bytes c1 = big_endian_low16 env.getpid →
      c1.seq32 = c2.seq32 →
      oid_init_run c1 (times.map fun c => ({ env with time := c.1 }, c.2))
        = oid_init_run c2 (times.map fun c => ({ env with time := c.1 }, c.2)) ∧
      ∀ o ∈ oid_init_run c1 (times.map fun c => ({ env with time := c.1 }, c.2)),
        [o.bytes 4, o.bytes 5, o.bytes 6]
          = [env.bson_md5 (host_name env) 0, env.bson_md5 (host_name env) 1,
             env.bson_md5 (host_name env) 2] ∧
        [o.bytes 7, o.bytes 8] = big_endian_low16 env.getpid := by
  induction times with
  | nil =>
    intro c1 c2 _ _ _ _ _ _ _ _ _
    simp [oid_init_run]
  | cons c rest ih =>
    intro c1 c2 hh1 hp1 hh2 hp2 m0 m1 m2 hpid hseq
    obtain ⟨t, oid⟩ := c
    simp only [List.map_cons]
    obtain ⟨o1, e1, run1⟩ := oid_init_run_cons c1 { env with time := t } oid
      (rest.map fun c => ({ env with time := c.1 }, c.2))
    obtain ⟨o2, e2, run2⟩ := oid_init_run_cons c2 { env with time := t } oid
      (rest.map fun c => ({ env with time := c.1 }, c.2))
    obtain ⟨a, ea, a0, a1, a2, a3, a9, a10, a11, ah, ap⟩ :=
      bson_oid_init_oid { env with time := t } oid c1
    obtain ⟨b, eb, b0, b1, b2, b3, b9, b10, b11, -, -⟩ :=
      bson_oid_init_oid { env with time := t } oid c2
    obtain ⟨b', eb', bh, bp⟩ := bson_oid_init_oid_live { env with time := t } oid c2
    rw [e1] at ea
    cases ea
    rw [e2] at eb eb'
    cases eb
    cases eb'
    obtain ⟨a4, a5, a6⟩ := ah hh1
    obtain ⟨a7, a8⟩ := ap hp1
    obtain ⟨b4, b5, b6⟩ := bh hh2
    have b78 := bp hp2
    have hpid' : [c1.pidbe 0, c1.pidbe 1] = big_endian_low16 env.getpid := hpid
    have e78 : [o1.bytes 7, o1.bytes 8] = big_endian_low16 env.getpid := by
      rw [a7, a8]
      exact hpid'
    have b78' : [o2.bytes 7, o2.bytes 8] = big_endian_low16 env.getpid := b78
    have e456 : [o1.bytes 4, o1.bytes 5, o1.bytes 6]
        = [env.bson_md5 (host_name env) 0, env.bson_md5 (host_name env) 1,
           env.bson_md5 (host_name env) 2] := by
      rw [a4, a5, a6, m0, m1, m2]
    have hoid : o1 = o2 := by
      apply bson_oid_t.toList_injective
      have h78 : [o1.bytes 7, o1.bytes 8] = [o2.bytes 7, o2.bytes 8] := e78.trans b78'.symm
      simp only [List.cons.injEq, and_true] at h78
      have hb4 : o2.bytes 4 = env.bson_md5 (host_name env) 0 := b4
      have hb5 : o2.bytes 5 = env.bson_md5 (host_name env) 1 := b5
      have hb6 : o2.bytes 6 = env.bson_md5 (host_name env) 2 := b6
      simp only [bson_oid_t.toList, a0, a1, a2, a3, b0, b1, b2, b3, a4, a5, a6, m0, m1, m2,
        hb4, hb5, hb6, h78.1, h78.2, a9, a10, a11, b9, b10, b11, hseq]
    obtain ⟨hrest, hall⟩ := ih { c1 with seq32 := (c1.seq32 + 1) % 2 ^ 32 }
      { c2 with seq32 := (c2.seq32 + 1) % 2 ^ 32 } hh1 hp1 hh2 hp2 m0 m1 m2 hpid
      (by simp only [hseq])
    rw [run1, run2, hoid, hrest]
    refine ⟨rfl, ?_⟩
    intro o ho
    rcases List.mem_cons.1 ho with h | h
    · subst h
      rw [← hoid]
      exact ⟨e456, e78⟩
    · rw [← hrest] at h
      exact hall o h

/-- C20. In an environment that stays the same but for the clock (host name,
digest, process id and random value fixed; the use-OS-thread-id flag not set), a
context initialised with default flags and a context initialised with both
caches disabled write the same identifiers from `bson_oid_init`, call after
call, at whatever times and into whatever memory; in each of them bytes 4 to 6
are the first three bytes of the digest of the host name and bytes 7 and 8 the
big-endian low 16 bits of the process id. -/
theorem oid_init_run_cache_equivalence (env : Env) (old1 old2 : bson_context_real_t)
    (times : List (Int × bson_oid_t)) :
    oid_init_run (bson_context_init env old1 BSON_CONTEXT_NONE)
        (times.map fun c => ({ env with time := c.1 }, c.2))
      = oid_init_run (bson_context_init env old2 no_cache_flags)
        (times.map fun c => ({ env with time := c.1 }, c.2)) ∧
    ∀ o ∈ oid_init_run (bson_context_init env old1 BSON_CONTEXT_NONE)
        (times.map fun c => ({ env with time := c.1 }, c.2)),
      [o.bytes 4, o.bytes 5, o.bytes 6]
        = [env.bson_md5 (host_name env) 0, env.bson_md5 (host_name env) 1,
           env.bson_md5 (host_name env) 2] ∧
      [o.bytes 7, o.bytes 8] = big_endian_low16 env.getpid := by
  obtain ⟨m0, m1, m2, hp⟩ := bson_context_init_default_cache env old1
  exact oid_init_run_cached_eq_live env times _ _ rfl rfl rfl rfl m0 m1 m2 hp rfl

end BsonOid
